import Mathlib

/-!
Shallow embedding of the PhishBlock stake-backed consensus and reputation engine.

The definitions below are translated from the Solidity sources of the repository:
`contracts/ReputationSystem.sol` (contracts `ReputationSystem`, `PhishBlockRegistry`
and `StakeBasedReportRegistry`) and `contracts/EvidenceValidator.sol`
(contract `EvidenceValidator`).  Addresses, timestamps and wei amounts are
modelled as `Nat`; Solidity mappings become total functions with pointwise
update; reverts become `Option`/`Except` failures that leave no state change.
-/

namespace PhishBlock

/-- Pointwise update of a total map, the effect of a Solidity mapping write. -/
def mapUpd {β : Type} (f : Nat → β) (a : Nat) (b : β) : Nat → β :=
  fun x => if x = a then b else f x

/-- Sum of the balances of a list of accounts. -/
def sumBal (addrs : List Nat) (b : Nat → Nat) : Nat := (addrs.map b).sum

namespace StakeBasedReportRegistry

/-- Model of `REPORT_STAKE = 0.01 ether` (in wei). -/
def REPORT_STAKE : Nat := 10000000000000000

/-- Model of `VOTING_STAKE = 0.005 ether` (in wei). -/
def VOTING_STAKE : Nat := 5000000000000000

/-- Model of `VALIDATOR_REWARD = 0.001 ether` (in wei). -/
def VALIDATOR_REWARD : Nat := 1000000000000000

/-- Model of `REPORTER_REWARD = 0.005 ether` (in wei). -/
def REPORTER_REWARD : Nat := 5000000000000000

def MIN_VALIDATORS : Nat := 3

def MAX_VALIDATORS : Nat := 5

/-- Model of `VOTING_PERIOD = 7 days` (in seconds). -/
def VOTING_PERIOD : Nat := 604800

inductive ReportStatus
  | Pending
  | Validated
  | Rejected
  | Expired
deriving DecidableEq, Repr

inductive VoteType
  | None
  | Valid
  | Invalid
deriving DecidableEq, Repr

structure Validator where
  id : Nat
  validatorAddress : Nat
  reputation : Nat
  totalValidations : Nat
  correctValidations : Nat
  isActive : Bool
  registrationTime : Nat
deriving DecidableEq, Repr

/-- Default value of the `validators` mapping. -/
def emptyValidator : Validator :=
  { id := 0, validatorAddress := 0, reputation := 0, totalValidations := 0,
    correctValidations := 0, isActive := false, registrationTime := 0 }

structure Report where
  id : Nat
  reportType : String
  targetValue : String
  description : String
  reportHash : String
  reporter : Nat
  stakeAmount : Nat
  timestamp : Nat
  votingDeadline : Nat
  status : ReportStatus
  validVotes : Nat
  invalidVotes : Nat
  votes : Nat → VoteType
  validatorStakes : Nat → Nat
  validators : List Nat

/-- Default value of the `reports` mapping. -/
def emptyReport : Report :=
  { id := 0, reportType := "", targetValue := "", description := "", reportHash := "",
    reporter := 0, stakeAmount := 0, timestamp := 0, votingDeadline := 0,
    status := .Pending, validVotes := 0, invalidVotes := 0,
    votes := fun _ => .None, validatorStakes := fun _ => 0, validators := [] }

/-- Contract storage of `StakeBasedReportRegistry`, together with the external
accounts' spendable ether balances and the contract's own ether balance (the
funds physically held by the engine: the locked stakes plus the reward pool). -/
structure State where
  balances : Nat → Nat
  contractBalance : Nat
  reportCount : Nat
  reports : Nat → Report
  validators : Nat → Validator
  validatorCount : Nat
  userReports : Nat → List Nat
  validatorReports : Nat → List Nat

/-- Freshly deployed contract: no reports, no validators, zero contract balance. -/
def initState (bal : Nat → Nat) : State :=
  { balances := bal, contractBalance := 0, reportCount := 0,
    reports := fun _ => emptyReport, validators := fun _ => emptyValidator,
    validatorCount := 0, userReports := fun _ => [], validatorReports := fun _ => [] }

/-- Model of `registerValidator()`: one-time self-registration, reverts if already active. -/
def registerValidator (s : State) (caller now : Nat) : Option State :=
  if (s.validators caller).isActive then none
  else
    let vid := s.validatorCount + 1
    some { s with
      validatorCount := vid,
      validators := mapUpd s.validators caller
        { id := vid, validatorAddress := caller, reputation := 100,
          totalValidations := 0, correctValidations := 0, isActive := true,
          registrationTime := now } }

/-- Model of `submitReportWithStake(...)`: locks `msg.value = REPORT_STAKE` from the
caller and creates a `Pending` report with a 7-day voting deadline.  Note the
source imposes no reputation precondition here. -/
def submitReportWithStake (s : State) (caller now : Nat)
    (reportType targetValue descr reportHash : String) (msgValue : Nat) : Option State :=
  if msgValue = REPORT_STAKE ∧ reportType ≠ "" ∧ targetValue ≠ "" ∧ descr ≠ ""
      ∧ msgValue ≤ s.balances caller then
    let rid := s.reportCount + 1
    let r : Report :=
      { id := rid, reportType := reportType, targetValue := targetValue,
        description := descr, reportHash := reportHash, reporter := caller,
        stakeAmount := msgValue, timestamp := now,
        votingDeadline := now + VOTING_PERIOD, status := .Pending,
        validVotes := 0, invalidVotes := 0, votes := fun _ => .None,
        validatorStakes := fun _ => 0, validators := [] }
    some { s with
      reportCount := rid,
      reports := mapUpd s.reports rid r,
      balances := mapUpd s.balances caller (s.balances caller - msgValue),
      contractBalance := s.contractBalance + msgValue,
      userReports := mapUpd s.userReports caller (s.userReports caller ++ [rid]) }
  else none

/-- Transfers performed by `_finalizeReport` on the `Validated` branch
(`_distributeValidatorRewards`): the reporter recovers the stake plus
`REPORTER_REWARD`; validators who voted `Valid` recover their voting stake plus
`VALIDATOR_REWARD`; the others recover only their voting stake. -/
def validatedEntry (r : Report) (v : Nat) : Nat × Nat :=
  if r.votes v = VoteType.Valid then (v, r.validatorStakes v + VALIDATOR_REWARD)
  else (v, r.validatorStakes v)

def validatedPayouts (r : Report) : List (Nat × Nat) :=
  (r.reporter, r.stakeAmount + REPORTER_REWARD) ::
    r.validators.map (validatedEntry r)

/-- Number of validators of the report who voted `Invalid`
(`correctValidators` in `_redistributeStake`). -/
def invalidVoterCount (r : Report) : Nat :=
  (r.validators.filter (fun v => decide (r.votes v = VoteType.Invalid))).length

/-- Transfers performed by `_redistributeStake` on the `Rejected` branch: the
reporter's stake is divided (integer division) among the validators who voted
`Invalid`, each of whom also recovers their own voting stake; validators who
voted `Valid` recover only their voting stake.  When no validator voted
`Invalid` the source transfers nothing. -/
def rejectedEntry (r : Report) (k : Nat) (v : Nat) : Nat × Nat :=
  if r.votes v = VoteType.Invalid then (v, r.validatorStakes v + r.stakeAmount / k)
  else (v, r.validatorStakes v)

def rejectedPayouts (r : Report) : List (Nat × Nat) :=
  let k := invalidVoterCount r
  if 0 < k then r.validators.map (rejectedEntry r k)
  else []

/-- Model of `_finalizeReport`: decides the outcome by strict majority
(`validVotes > invalidVotes`), sets the terminal status, and produces the list
of transfers to execute. -/
def finalizeReport (r : Report) : Report × List (Nat × Nat) :=
  if r.validVotes > r.invalidVotes then
    ({ r with status := .Validated }, validatedPayouts r)
  else
    ({ r with status := .Rejected }, rejectedPayouts r)

/-- Correctness of a validator's vote relative to the final outcome, as
computed in `_updateValidatorReputation`. -/
def voteCorrect (r : Report) (v : Nat) : Bool :=
  decide ((r.status = ReportStatus.Validated ∧ r.votes v = VoteType.Valid) ∨
          (r.status = ReportStatus.Rejected ∧ r.votes v = VoteType.Invalid))

/-- One iteration of the `_updateValidatorReputation` loop. -/
def bumpValidator (r : Report) (vals : Nat → Validator) (v : Nat) : Nat → Validator :=
  let val := vals v
  let val' :=
    if voteCorrect r v then
      { val with totalValidations := val.totalValidations + 1,
                 correctValidations := val.correctValidations + 1,
                 reputation := val.reputation + 1 }
    else
      { val with totalValidations := val.totalValidations + 1,
                 reputation := if 1 < val.reputation then val.reputation - 1 else 1 }
  mapUpd vals v val'

/-- Model of `_updateValidatorReputation`: adjusts every participating validator's
counters and reputation by ±1 according to vote correctness. -/
def updateValidatorReputation (r : Report) (vals : Nat → Validator) : Nat → Validator :=
  r.validators.foldl (bumpValidator r) vals

/-- Sequentially credit a list of transfers to the account balances. -/
def applyCredits (b : Nat → Nat) : List (Nat × Nat) → (Nat → Nat)
  | [] => b
  | p :: rest => applyCredits (mapUpd b p.1 (b p.1 + p.2)) rest

/-- Total amount of a list of transfers. -/
def payoutTotal (ps : List (Nat × Nat)) : Nat := (ps.map Prod.snd).sum

/-- The vote-recording block of `voteOnReport`: the caller is appended to the
report's validator list (if not already there), their vote and voting stake
are stored and the tally is incremented. -/
def recordVote (r : Report) (caller : Nat) (isValid : Bool) (msgValue : Nat) : Report :=
  { r with
    validators := if caller ∈ r.validators then r.validators else r.validators ++ [caller],
    votes := mapUpd r.votes caller (if isValid then VoteType.Valid else VoteType.Invalid),
    validatorStakes := mapUpd r.validatorStakes caller msgValue,
    validVotes := r.validVotes + (if isValid then 1 else 0),
    invalidVotes := r.invalidVotes + (if isValid then 0 else 1) }

/-- The state after the vote has been recorded and the voting stake received:
the updated report is stored and `msg.value` moves from the caller to the
contract. -/
def voteState (s : State) (caller reportId msgValue : Nat) (r1 : Report) : State :=
  { s with
    reports := mapUpd s.reports reportId r1,
    balances := mapUpd s.balances caller (s.balances caller - msgValue),
    contractBalance := s.contractBalance + msgValue,
    validatorReports := mapUpd s.validatorReports caller
      (s.validatorReports caller ++ [reportId]) }

/-- The settlement block of `_finalizeReport`: the finalized report is stored,
its payouts are transferred out of the contract, and
`_updateValidatorReputation` adjusts the participating validators. -/
def settleState (s1 : State) (reportId : Nat) (fr : Report × List (Nat × Nat)) : State :=
  { s1 with
    reports := mapUpd s1.reports reportId fr.1,
    balances := applyCredits s1.balances fr.2,
    contractBalance := s1.contractBalance - payoutTotal fr.2,
    validators := updateValidatorReputation fr.1 s1.validators }

/-- Model of `voteOnReport(reportId, isValid)`: an active validator locks
`msg.value = VOTING_STAKE` on a `Pending` report before its deadline, the tally
is updated, and the vote that brings the validator list to `MIN_VALIDATORS`
triggers `_finalizeReport` synchronously.  Transfers that the contract cannot
cover make the whole call revert. -/
def voteOnReport (s : State) (caller now reportId : Nat) (isValid : Bool)
    (msgValue : Nat) : Option State :=
  if (s.validators caller).isActive = true
      ∧ reportId ≤ s.reportCount
      ∧ now ≤ (s.reports reportId).votingDeadline
      ∧ (s.reports reportId).status = ReportStatus.Pending
      ∧ msgValue = VOTING_STAKE
      ∧ (s.reports reportId).votes caller = VoteType.None
      ∧ msgValue ≤ s.balances caller then
    if MIN_VALIDATORS ≤
        (recordVote (s.reports reportId) caller isValid msgValue).validators.length then
      if payoutTotal
            (finalizeReport (recordVote (s.reports reportId) caller isValid msgValue)).2
          ≤ (voteState s caller reportId msgValue
              (recordVote (s.reports reportId) caller isValid msgValue)).contractBalance then
        some (settleState
          (voteState s caller reportId msgValue
            (recordVote (s.reports reportId) caller isValid msgValue))
          reportId
          (finalizeReport (recordVote (s.reports reportId) caller isValid msgValue)))
      else none
    else some (voteState s caller reportId msgValue
      (recordVote (s.reports reportId) caller isValid msgValue))
  else none

/-- The engine's externally callable state-mutating operations.  `deposit`
models ether sent to the contract's `receive()` function from outside the
modelled accounts: the explicit external deposit that funds the reward pool. -/
inductive Op
  | register (caller now : Nat)
  | submit (caller now : Nat) (reportType targetValue descr reportHash : String) (msgValue : Nat)
  | vote (caller now reportId : Nat) (isValid : Bool) (msgValue : Nat)
  | deposit (amount : Nat)

def step (s : State) : Op → Option State
  | .register c t => registerValidator s c t
  | .submit c t ty tv d h mv => submitReportWithStake s c t ty tv d h mv
  | .vote c t rid iv mv => voteOnReport s c t rid iv mv
  | .deposit a => some { s with contractBalance := s.contractBalance + a }

/-- A failing operation reverts: the state is unchanged. -/
def applyOp (s : State) (op : Op) : State := (step s op).getD s

def run (s : State) : List Op → State
  | [] => s
  | op :: ops => run (applyOp s op) ops

def opCaller : Op → Nat
  | .register c _ => c
  | .submit c _ _ _ _ _ _ => c
  | .vote c _ _ _ _ => c
  | .deposit _ => 0

def isDeposit : Op → Bool
  | .deposit _ => true
  | _ => false

/-- Ether locked in a report: while `Pending` the contract holds the report
stake and all voting stakes; finalization pays everything out. -/
def lockedOf (r : Report) : Nat :=
  if r.status = ReportStatus.Pending then
    r.stakeAmount + (r.validators.map r.validatorStakes).sum
  else 0

/-- Total ether locked in active (pending) reports. -/
def lockedTotal (s : State) : Nat :=
  ((List.range (s.reportCount + 1)).map (fun i => lockedOf (s.reports i))).sum

/-- The reward pool: the part of the contract's balance not locked in pending
reports (it funds `REPORTER_REWARD` and `VALIDATOR_REWARD` payouts and absorbs
integer-division dust from stake redistribution). -/
def rewardPoolBalance (s : State) : Int :=
  (s.contractBalance : Int) - (lockedTotal s : Int)

/-- Total value of the system over a set of accounts: spendable balances plus
active locked stakes plus the reward pool balance. -/
def totalValue (addrs : List Nat) (s : State) : Int :=
  (sumBal addrs s.balances : Int) + (lockedTotal s : Int) + rewardPoolBalance s

/-- Predicate stating that `addrs` covers every address the stored reports can pay out to. -/
def supports (addrs : List Nat) (s : State) : Prop :=
  ∀ i, i ≤ s.reportCount →
    (s.reports i).reporter ∈ addrs ∧ ∀ v ∈ (s.reports i).validators, v ∈ addrs

/-- Validator-list invariant of every report: the list has no duplicates, it
never exceeds `MIN_VALIDATORS` entries, and while the report is `Pending` it
stays strictly below `MIN_VALIDATORS` (the vote reaching `MIN_VALIDATORS`
finalizes the report within the same call). -/
def quorumInv (s : State) : Prop :=
  ∀ i, (s.reports i).validators.Nodup
    ∧ (s.reports i).validators.length ≤ MIN_VALIDATORS
    ∧ ((s.reports i).status = ReportStatus.Pending →
        (s.reports i).validators.length < MIN_VALIDATORS)

end StakeBasedReportRegistry

namespace ReputationSystem

inductive StakeType
  | Report
  | Vote
  | Validator
deriving DecidableEq, Repr

inductive ReputationTier
  | Bronze
  | Silver
  | Gold
  | Platinum
  | Diamond
deriving DecidableEq, Repr

/-- Model of `MIN_STAKE_AMOUNT = 100 * 10**18`. -/
def MIN_STAKE_AMOUNT : Nat := 100000000000000000000

/-- Model of `MAX_STAKE_PERIOD = 365 days` (in seconds). -/
def MAX_STAKE_PERIOD : Nat := 31536000

/-- Model of `MIN_STAKE_PERIOD = 7 days` (in seconds). -/
def MIN_STAKE_PERIOD : Nat := 604800

/-- Model of `SLASHING_PENALTY = 10` (percent). -/
def SLASHING_PENALTY : Nat := 10

/-- Model of `REWARD_CLAIM_COOLDOWN = 1 day` (in seconds). -/
def REWARD_CLAIM_COOLDOWN : Nat := 86400

def MAX_STAKES_PER_USER : Nat := 10

/-- Constructor-initialized `stakeTypeMultipliers`. -/
def stakeTypeMultipliers : StakeType → Nat
  | .Report => 150
  | .Vote => 120
  | .Validator => 200

/-- Constructor-initialized `tierThresholds`. -/
def tierThresholds : ReputationTier → Nat
  | .Bronze => 0
  | .Silver => 50
  | .Gold => 100
  | .Platinum => 250
  | .Diamond => 500

structure Stake where
  amount : Nat
  timestamp : Nat
  lockPeriod : Nat
  stakeType : StakeType
  active : Bool
  reputationMultiplier : Nat
deriving DecidableEq, Repr

/-- Default value of the `userStakes` mapping. -/
def emptyStake : Stake :=
  { amount := 0, timestamp := 0, lockPeriod := 0, stakeType := .Report,
    active := false, reputationMultiplier := 0 }

structure ReputationProfile where
  baseReputation : Nat
  stakedReputation : Nat
  totalReputation : Nat
  tier : ReputationTier
  lastUpdate : Nat
  reportsSubmitted : Nat
  votesCast : Nat
  correctVotes : Nat
  falseReports : Nat
  slashingCount : Nat
deriving DecidableEq, Repr

/-- Default value of the `reputationProfiles` mapping. -/
def emptyProfile : ReputationProfile :=
  { baseReputation := 0, stakedReputation := 0, totalReputation := 0,
    tier := .Bronze, lastUpdate := 0, reportsSubmitted := 0, votesCast := 0,
    correctVotes := 0, falseReports := 0, slashingCount := 0 }

/-- Contract storage of `ReputationSystem`, together with the users' ERC20
token balances and the tokens held by the contract itself. -/
structure State where
  tokenBalances : Nat → Nat
  contractTokens : Nat
  stakeCounter : Nat
  userStakes : Nat → Nat → Stake
  userStakeCount : Nat → Nat
  reputationProfiles : Nat → ReputationProfile
  pendingRewards : Nat → Nat
  lastRewardClaim : Nat → Nat
  rewardPoolTotalRewards : Nat

/-- Freshly deployed contract over a given token-balance distribution. -/
def initState (bal : Nat → Nat) : State :=
  { tokenBalances := bal, contractTokens := 0, stakeCounter := 0,
    userStakes := fun _ _ => emptyStake, userStakeCount := fun _ => 0,
    reputationProfiles := fun _ => emptyProfile, pendingRewards := fun _ => 0,
    lastRewardClaim := fun _ => 0, rewardPoolTotalRewards := 0 }

/-- The loop body of `_updateStakedReputation`: sum of active stake amounts at
ids `1 .. count` of the given per-user stake map. -/
def activeStakeSumLoop (stakes : Nat → Stake) (count : Nat) : Nat :=
  ((List.range' 1 count).map
    (fun i => if (stakes i).active then (stakes i).amount else 0)).sum

/-- Model of `_updateStakedReputation(user)`: recomputes the profile's
`stakedReputation` (1 token = 1 reputation point) and `totalReputation`. -/
def updateStakedReputation (s : State) (user : Nat) : State :=
  let p := s.reputationProfiles user
  let totalStaked := activeStakeSumLoop (s.userStakes user) (s.userStakeCount user)
  let staked := totalStaked / 1000000000000000000
  let p' := { p with stakedReputation := staked,
                     totalReputation := p.baseReputation + staked }
  { s with reputationProfiles := mapUpd s.reputationProfiles user p' }

/-- Model of `_calculateTier`: highest tier whose threshold is below the total. -/
def calculateTier (totalReputation : Nat) : ReputationTier :=
  if tierThresholds .Diamond ≤ totalReputation then .Diamond
  else if tierThresholds .Platinum ≤ totalReputation then .Platinum
  else if tierThresholds .Gold ≤ totalReputation then .Gold
  else if tierThresholds .Silver ≤ totalReputation then .Silver
  else .Bronze

/-- Model of `depositStake(amount, lockPeriod, stakeType)`: reputation-gated
(`baseReputation ≥ 10`), pulls `amount` tokens into the contract and records a
new active stake under the global stake counter. -/
def depositStake (s : State) (caller now : Nat) (amount lockPeriod : Nat)
    (stakeType : StakeType) : Option State :=
  if 10 ≤ (s.reputationProfiles caller).baseReputation
      ∧ MIN_STAKE_AMOUNT ≤ amount
      ∧ MIN_STAKE_PERIOD ≤ lockPeriod ∧ lockPeriod ≤ MAX_STAKE_PERIOD
      ∧ s.userStakeCount caller < MAX_STAKES_PER_USER
      ∧ amount ≤ s.tokenBalances caller then
    let sid := s.stakeCounter + 1
    let st : Stake :=
      { amount := amount, timestamp := now, lockPeriod := lockPeriod,
        stakeType := stakeType, active := true,
        reputationMultiplier := stakeTypeMultipliers stakeType }
    let s1 := { s with
      tokenBalances := mapUpd s.tokenBalances caller (s.tokenBalances caller - amount),
      contractTokens := s.contractTokens + amount,
      stakeCounter := sid,
      userStakes := mapUpd s.userStakes caller (mapUpd (s.userStakes caller) sid st),
      userStakeCount := mapUpd s.userStakeCount caller (s.userStakeCount caller + 1) }
    some (updateStakedReputation s1 caller)
  else none

/-- The penalty computed by `withdrawStake`: `SLASHING_PENALTY` percent of the
stake when the withdrawal happens strictly before the lock period elapses,
zero otherwise. -/
def earlyPenalty (st : Stake) (now : Nat) : Nat :=
  if now < st.timestamp + st.lockPeriod then st.amount * SLASHING_PENALTY / 100 else 0

/-- The state mutation performed by a successful `withdrawStake`: the stake is
deactivated, the staked reputation recomputed, `amount - penalty` transferred
back to the caller, and the penalty credited to the reward pool. -/
def withdrawApply (s : State) (caller now stakeId : Nat) : State :=
  let st := s.userStakes caller stakeId
  let penalty := earlyPenalty st now
  let withdrawAmount := st.amount - penalty
  let s1 := { s with
    userStakes := mapUpd s.userStakes caller
      (mapUpd (s.userStakes caller) stakeId { st with active := false }),
    userStakeCount := mapUpd s.userStakeCount caller (s.userStakeCount caller - 1) }
  let s2 := updateStakedReputation s1 caller
  { s2 with
    tokenBalances := mapUpd s2.tokenBalances caller
      (s2.tokenBalances caller + withdrawAmount),
    contractTokens := s2.contractTokens - withdrawAmount,
    rewardPoolTotalRewards := s2.rewardPoolTotalRewards + penalty }

/-- Model of `withdrawStake(stakeId)`: deactivates an active stake owned by the caller;
a withdrawal strictly before `timestamp + lockPeriod` keeps a
`SLASHING_PENALTY` percent penalty that is credited to the reward pool, the
remainder is transferred back to the caller. -/
def withdrawStake (s : State) (caller now stakeId : Nat) : Option State :=
  if 0 < (s.userStakes caller stakeId).amount
      ∧ (s.userStakes caller stakeId).active = true then
    if (s.userStakes caller stakeId).amount
        - earlyPenalty (s.userStakes caller stakeId) now ≤ s.contractTokens then
      some (withdrawApply s caller now stakeId)
    else none
  else none

/-- The state mutation performed by a successful `slashUser`. -/
def slashApply (s : State) (user stakeId : Nat) : State :=
  let st := s.userStakes user stakeId
  let slashAmount := st.amount * SLASHING_PENALTY / 100
  let p := s.reputationProfiles user
  let s1 := { s with
    userStakes := mapUpd s.userStakes user
      (mapUpd (s.userStakes user) stakeId { st with amount := st.amount - slashAmount }),
    reputationProfiles := mapUpd s.reputationProfiles user
      { p with slashingCount := p.slashingCount + 1 },
    rewardPoolTotalRewards := s.rewardPoolTotalRewards + slashAmount }
  updateStakedReputation s1 user

/-- Model of `slashUser(user, stakeId, reason)`: burns `SLASHING_PENALTY` percent of an
active stake into the reward pool and increments the owner's slashing count. -/
def slashUser (s : State) (user stakeId : Nat) : Option State :=
  if 0 < (s.userStakes user stakeId).amount
      ∧ (s.userStakes user stakeId).active = true then
    some (slashApply s user stakeId)
  else none

/-- Model of `claimRewards()`: pays out the caller's pending rewards after the claim
cooldown. -/
def claimRewards (s : State) (caller now : Nat) : Option State :=
  if s.lastRewardClaim caller + REWARD_CLAIM_COOLDOWN ≤ now
      ∧ 0 < s.pendingRewards caller
      ∧ s.pendingRewards caller ≤ s.contractTokens then
    let rewards := s.pendingRewards caller
    some { s with
      pendingRewards := mapUpd s.pendingRewards caller 0,
      lastRewardClaim := mapUpd s.lastRewardClaim caller now,
      tokenBalances := mapUpd s.tokenBalances caller (s.tokenBalances caller + rewards),
      contractTokens := s.contractTokens - rewards }
  else none

/-- Model of `updateReputation(user, change, isCorrectVote)`: a profile whose
`baseReputation` is `0` is first initialized to the baseline `10`; a positive
`change` is added to `baseReputation`, a non-positive one is subtracted with a
floor at `0`; then staked reputation and the tier are recomputed. -/
def updateReputation (s : State) (user : Nat) (change : Int) (isCorrectVote : Bool)
    (now : Nat) : State :=
  let p0 := s.reputationProfiles user
  let p1 := if p0.baseReputation = 0 then
      { p0 with baseReputation := 10, tier := ReputationTier.Bronze, lastUpdate := now }
    else p0
  let p2 := if 0 < change then
      { p1 with baseReputation := p1.baseReputation + change.toNat,
                correctVotes := p1.correctVotes + (if isCorrectVote then 1 else 0) }
    else
      let decrease := (-change).toNat
      { p1 with
        baseReputation := if decrease ≤ p1.baseReputation
          then p1.baseReputation - decrease else 0,
        falseReports := p1.falseReports + (if isCorrectVote then 0 else 1) }
  let s1 := { s with reputationProfiles := mapUpd s.reputationProfiles user p2 }
  let s2 := updateStakedReputation s1 user
  let p3 := s2.reputationProfiles user
  let p4 := { p3 with tier := calculateTier p3.totalReputation }
  { s2 with reputationProfiles := mapUpd s2.reputationProfiles user p4 }

/-- State-mutating operations of `ReputationSystem`. -/
inductive Op
  | deposit (caller now amount lockPeriod : Nat) (stakeType : StakeType)
  | withdraw (caller now stakeId : Nat)
  | slash (user stakeId : Nat)
  | claim (caller now : Nat)
  | updateRep (user : Nat) (change : Int) (isCorrectVote : Bool) (now : Nat)

def step (s : State) : Op → Option State
  | .deposit c t a l ty => depositStake s c t a l ty
  | .withdraw c t i => withdrawStake s c t i
  | .slash u i => slashUser s u i
  | .claim c t => claimRewards s c t
  | .updateRep u ch icv t => some (updateReputation s u ch icv t)

def applyOp (s : State) (op : Op) : State := (step s op).getD s

def run (s : State) : List Op → State
  | [] => s
  | op :: ops => run (applyOp s op) ops

/-- The account an operation can move tokens to or from. -/
def opUser : Op → Nat
  | .deposit c _ _ _ _ => c
  | .withdraw c _ _ => c
  | .slash u _ => u
  | .claim c _ => c
  | .updateRep u _ _ _ => u

/-- Tokens locked in the active stakes of one user
(stake ids range over the global counter). -/
def userActiveStakes (s : State) (a : Nat) : Nat :=
  ((List.range (s.stakeCounter + 1)).map
    (fun i => if (s.userStakes a i).active then (s.userStakes a i).amount else 0)).sum

/-- Tokens locked in active stakes over a set of accounts. -/
def lockedTokens (addrs : List Nat) (s : State) : Nat :=
  (addrs.map (userActiveStakes s)).sum

/-- The part of the contract's token holdings not locked in active stakes:
slashing proceeds, early-withdrawal penalties and unclaimed rewards. -/
def rewardPoolTokens (addrs : List Nat) (s : State) : Int :=
  (s.contractTokens : Int) - (lockedTokens addrs s : Int)

/-- Total token value over a set of accounts: spendable balances plus active
locked stakes plus the reward pool. -/
def totalTokens (addrs : List Nat) (s : State) : Int :=
  (sumBal addrs s.tokenBalances : Int) + (lockedTokens addrs s : Int)
    + rewardPoolTokens addrs s

end ReputationSystem

namespace PhishBlockRegistry

inductive EvidenceType
  | URL
  | Wallet
  | Screenshot
  | Document
deriving DecidableEq, Repr

inductive ReportStatus
  | Pending
  | Verified
  | Disputed
  | Resolved
deriving DecidableEq, Repr

def MIN_REPUTATION_TO_VOTE : Nat := 10

def MIN_REPUTATION_TO_REPORT : Nat := 5

/-- Model of `RATE_LIMIT_WINDOW = 1 hour` (in seconds). -/
def RATE_LIMIT_WINDOW : Nat := 3600

def MAX_SUBMISSIONS_PER_WINDOW : Nat := 5

structure Report where
  reporter : Nat
  targetUrl : String
  targetWallet : String
  description : String
  ipfsHash : String
  evidenceType : EvidenceType
  status : ReportStatus
  timestamp : Nat
  upvotes : Nat
  downvotes : Nat
  disputeCount : Nat
  present : Bool

/-- Default value of the `reports` mapping (`exists = false`). -/
def emptyReport : Report :=
  { reporter := 0, targetUrl := "", targetWallet := "", description := "",
    ipfsHash := "", evidenceType := .URL, status := .Pending, timestamp := 0,
    upvotes := 0, downvotes := 0, disputeCount := 0, present := false }

/-- Contract storage of `PhishBlockRegistry` (report ids are modelled by the
report counter instead of the keccak hash). -/
structure State where
  userReputation : Nat → Nat
  lastSubmissionTime : Nat → Nat
  submissionCount : Nat → Nat
  urlBlacklist : String → Bool
  walletBlacklist : String → Bool
  reportCount : Nat
  reports : Nat → Report

/-- Freshly deployed contract: the deployer `owner` starts with reputation 100. -/
def initState (owner : Nat) : State :=
  { userReputation := mapUpd (fun _ => 0) owner 100,
    lastSubmissionTime := fun _ => 0, submissionCount := fun _ => 0,
    urlBlacklist := fun _ => false, walletBlacklist := fun _ => false,
    reportCount := 0, reports := fun _ => emptyReport }

/-- Error taxonomy of the guarded entry points. -/
inductive Err
  | insufficientReputation
  | rateLimitExceeded
  | invalidInput
  | alreadyBlacklisted
deriving DecidableEq, Repr

/-- Model of `submitReport(targetUrl, targetWallet, description, ipfsHash, evidenceType)`
of `PhishBlockRegistry`: gated by the `onlyValidReporter` reputation floor and
the `rateLimited` modifier, then input and blacklist checks; on success a new
`Pending` report is stored and the submission window counters updated.  This
entry point locks no stake. -/
def submitReport (s : State) (caller now : Nat)
    (targetUrl targetWallet descr ipfsHash : String) (evidenceType : EvidenceType) :
    Except Err State :=
  if s.userReputation caller < MIN_REPUTATION_TO_REPORT then
    .error .insufficientReputation
  else if ¬ (RATE_LIMIT_WINDOW ≤ now - s.lastSubmissionTime caller
      ∨ s.submissionCount caller < MAX_SUBMISSIONS_PER_WINDOW) then
    .error .rateLimitExceeded
  else if targetUrl = "" ∧ targetWallet = "" then
    .error .invalidInput
  else if descr = "" then
    .error .invalidInput
  else if ipfsHash = "" then
    .error .invalidInput
  else if targetUrl ≠ "" ∧ s.urlBlacklist targetUrl = true then
    .error .alreadyBlacklisted
  else if targetWallet ≠ "" ∧ s.walletBlacklist targetWallet = true then
    .error .alreadyBlacklisted
  else
    let rid := s.reportCount + 1
    let r : Report :=
      { reporter := caller, targetUrl := targetUrl, targetWallet := targetWallet,
        description := descr, ipfsHash := ipfsHash, evidenceType := evidenceType,
        status := .Pending, timestamp := now, upvotes := 0, downvotes := 0,
        disputeCount := 0, present := true }
    let cnt := if RATE_LIMIT_WINDOW ≤ now - s.lastSubmissionTime caller
      then 1 else s.submissionCount caller + 1
    .ok { s with
      reportCount := rid,
      reports := mapUpd s.reports rid r,
      submissionCount := mapUpd s.submissionCount caller cnt,
      lastSubmissionTime := mapUpd s.lastSubmissionTime caller now }

end PhishBlockRegistry

namespace EvidenceValidator

inductive EvidenceStatus
  | Pending
  | Validated
  | Rejected
  | UnderReview
deriving DecidableEq, Repr

inductive ValidationLevel
  | Basic
  | Standard
  | Advanced
  | Expert
deriving DecidableEq, Repr

def MIN_VALIDATION_REPUTATION : Nat := 50

/-- Model of `MAX_FILE_SIZE = 10 * 1024 * 1024`. -/
def MAX_FILE_SIZE : Nat := 10485760

def MIN_VALIDATIONS_REQUIRED : Nat := 3

/-- Model of `VALIDATION_TIMEOUT = 7 days` (in seconds). -/
def VALIDATION_TIMEOUT : Nat := 604800

def IPFS_HASH_LENGTH : Nat := 46

def REPUTATION_REWARD_VALIDATION : Nat := 2

structure ValidationResult where
  validator : Nat
  isValid : Bool
  reason : String
  timestamp : Nat
  level : ValidationLevel

structure Evidence where
  submitter : Nat
  ipfsHash : String
  evidenceType : Nat
  status : EvidenceStatus
  validationLevel : ValidationLevel
  timestamp : Nat
  fileSize : Nat
  mimeType : String
  originalUrl : String
  description : String
  present : Bool
  validators : Nat → Bool
  validationCount : Nat
  positiveValidations : Nat
  negativeValidations : Nat

/-- Default value of the `evidence` mapping (`exists = false`). -/
def emptyEvidence : Evidence :=
  { submitter := 0, ipfsHash := "", evidenceType := 0, status := .Pending,
    validationLevel := .Basic, timestamp := 0, fileSize := 0, mimeType := "",
    originalUrl := "", description := "", present := false,
    validators := fun _ => false, validationCount := 0,
    positiveValidations := 0, negativeValidations := 0 }

/-- Contract storage of `EvidenceValidator` (evidence ids are modelled by the
evidence counter instead of the keccak hash). -/
structure State where
  evidence : Nat → Evidence
  evidenceCount : Nat
  validationResults : Nat → List ValidationResult
  validatorReputation : Nat → Nat
  authorizedValidators : Nat → Bool
  knownIPFSHashes : String → Bool

/-- Freshly deployed contract: the deployer `owner` is an authorized validator
with reputation 100. -/
def initState (owner : Nat) : State :=
  { evidence := fun _ => emptyEvidence, evidenceCount := 0,
    validationResults := fun _ => [],
    validatorReputation := mapUpd (fun _ => 0) owner 100,
    authorizedValidators := fun a => decide (a = owner),
    knownIPFSHashes := fun _ => false }

/-- Model of `submitEvidence(ipfsHash, evidenceType, fileSize, mimeType, originalUrl,
description)`: validates the hash length, the file size, non-empty fields and
hash uniqueness; stores a `Pending` evidence item at validation level
`Basic`. -/
def submitEvidence (s : State) (caller now : Nat) (ipfsHash : String)
    (evidenceType : Nat) (fileSize : Nat) (mimeType originalUrl descr : String) :
    Option State :=
  if ipfsHash.length = IPFS_HASH_LENGTH ∧ fileSize ≤ MAX_FILE_SIZE ∧ 0 < fileSize
      ∧ mimeType ≠ "" ∧ descr ≠ "" ∧ s.knownIPFSHashes ipfsHash = false then
    let eid := s.evidenceCount + 1
    let ev : Evidence :=
      { submitter := caller, ipfsHash := ipfsHash, evidenceType := evidenceType,
        status := .Pending, validationLevel := .Basic, timestamp := now,
        fileSize := fileSize, mimeType := mimeType, originalUrl := originalUrl,
        description := descr, present := true, validators := fun _ => false,
        validationCount := 0, positiveValidations := 0, negativeValidations := 0 }
    some { s with
      evidenceCount := eid,
      evidence := mapUpd s.evidence eid ev,
      knownIPFSHashes := fun h => if h = ipfsHash then true else s.knownIPFSHashes h }
  else none

/-- Model of `_finalizeValidation`: `Validated` when strictly more positive than
negative validations, otherwise `Rejected`. -/
def finalizeValidation (ev : Evidence) : Evidence :=
  if ev.negativeValidations < ev.positiveValidations then
    { ev with status := .Validated }
  else
    { ev with status := .Rejected }

/-- Model of `validateEvidence(evidenceId, isValid, reason, level)`: an authorized
validator with sufficient reputation records a verdict on a pending evidence
item within the validation window; a positive verdict immediately earns the
caller `REPUTATION_REWARD_VALIDATION`; the validation that reaches
`MIN_VALIDATIONS_REQUIRED` triggers `_finalizeValidation` synchronously. -/
def validateEvidence (s : State) (caller now evidenceId : Nat) (isValid : Bool)
    (reason : String) (level : ValidationLevel) : Option State :=
  let ev := s.evidence evidenceId
  if s.authorizedValidators caller = true
      ∧ MIN_VALIDATION_REPUTATION ≤ s.validatorReputation caller
      ∧ ev.present = true
      ∧ (ev.status = EvidenceStatus.Pending ∨ ev.status = EvidenceStatus.UnderReview)
      ∧ reason ≠ ""
      ∧ ev.validators caller = false
      ∧ now ≤ ev.timestamp + VALIDATION_TIMEOUT then
    let ev1 : Evidence :=
      { ev with
        validators := fun a => if a = caller then true else ev.validators a,
        validationCount := ev.validationCount + 1,
        positiveValidations := ev.positiveValidations + (if isValid then 1 else 0),
        negativeValidations := ev.negativeValidations + (if isValid then 0 else 1) }
    let rep' := if isValid
      then mapUpd s.validatorReputation caller
        (s.validatorReputation caller + REPUTATION_REWARD_VALIDATION)
      else s.validatorReputation
    let ev2 := if MIN_VALIDATIONS_REQUIRED ≤ ev1.validationCount
      then finalizeValidation ev1 else ev1
    let vr : ValidationResult :=
      { validator := caller, isValid := isValid, reason := reason,
        timestamp := now, level := level }
    some { s with
      evidence := mapUpd s.evidence evidenceId ev2,
      validatorReputation := rep',
      validationResults := mapUpd s.validationResults evidenceId
        (s.validationResults evidenceId ++ [vr]) }
  else none

end EvidenceValidator

namespace StakeBasedReportRegistry

/-- Amount a given address receives from a list of transfers. -/
def paidTo (ps : List (Nat × Nat)) (a : Nat) : Nat :=
  ((ps.filter (fun p => decide (p.1 = a))).map Prod.snd).sum

end StakeBasedReportRegistry

/-! Concrete fixtures used by witnesses and counterexamples. -/

namespace Fixtures

/-- A uniform initial ether balance of 1 ether per account. -/
def bal0 : Nat → Nat := fun _ => 1000000000000000000

/-- Registry run: three registered validators, one staked report, then votes
invalid, invalid, valid — the third vote reaches quorum and finalizes. -/
def sbrRejectedOps : List StakeBasedReportRegistry.Op :=
  [.register 1 0, .register 2 0, .register 3 0,
   .submit 4 0 "phishing_url" "http" "d" "h" StakeBasedReportRegistry.REPORT_STAKE,
   .vote 1 5 1 false StakeBasedReportRegistry.VOTING_STAKE,
   .vote 2 5 1 false StakeBasedReportRegistry.VOTING_STAKE,
   .vote 3 5 1 true StakeBasedReportRegistry.VOTING_STAKE]

/-- Same run stopped after two votes: the report is still pending with two
validators. -/
def sbrPendingOps : List StakeBasedReportRegistry.Op :=
  [.register 1 0, .register 2 0, .register 3 0,
   .submit 4 0 "phishing_url" "http" "d" "h" StakeBasedReportRegistry.REPORT_STAKE,
   .vote 1 5 1 false StakeBasedReportRegistry.VOTING_STAKE,
   .vote 2 5 1 false StakeBasedReportRegistry.VOTING_STAKE]

/-- Registry state holding one pending report (id 1, submitted at time 0 by
account 4) and one registered validator (account 2) that never voted. -/
def sbrStaleState : StakeBasedReportRegistry.State :=
  StakeBasedReportRegistry.run (StakeBasedReportRegistry.initState bal0)
    [.submit 4 0 "phishing_url" "http" "d" "h" StakeBasedReportRegistry.REPORT_STAKE,
     .register 2 0]

/-- A report at quorum with votes valid, valid, invalid from validators
1, 2, 3 (stakes `VOTING_STAKE` each) submitted by account 4. -/
def reportA : StakeBasedReportRegistry.Report :=
  { StakeBasedReportRegistry.emptyReport with
    id := 1, reporter := 4,
    stakeAmount := StakeBasedReportRegistry.REPORT_STAKE,
    votingDeadline := StakeBasedReportRegistry.VOTING_PERIOD,
    validVotes := 2, invalidVotes := 1,
    votes := fun a => if a = 1 ∨ a = 2 then .Valid
      else if a = 3 then .Invalid else .None,
    validatorStakes := fun a =>
      if a = 1 ∨ a = 2 ∨ a = 3 then StakeBasedReportRegistry.VOTING_STAKE else 0,
    validators := [1, 2, 3] }

/-- Same report with the tally swapped: votes invalid, invalid, valid. -/
def reportB : StakeBasedReportRegistry.Report :=
  { reportA with
    validVotes := 1, invalidVotes := 2,
    votes := fun a => if a = 1 ∨ a = 2 then .Invalid
      else if a = 3 then .Valid else .None }

/-- A tied report: one valid and one invalid vote from validators 1 and 2. -/
def reportTie : StakeBasedReportRegistry.Report :=
  { reportA with
    validVotes := 1, invalidVotes := 1,
    votes := fun a => if a = 1 then .Valid
      else if a = 2 then .Invalid else .None,
    validatorStakes := fun a =>
      if a = 1 ∨ a = 2 then StakeBasedReportRegistry.VOTING_STAKE else 0,
    validators := [1, 2] }

/-- Reputation-system state holding one active stake of 1000 tokens (id 1,
owner 1, created at time 0, lock period 100 seconds), fully token-covered. -/
def rsStakeState : ReputationSystem.State :=
  { ReputationSystem.initState (fun _ => 0) with
    contractTokens := 1000,
    stakeCounter := 1,
    userStakeCount := mapUpd (fun _ => 0) 1 1,
    userStakes := mapUpd (fun _ _ => ReputationSystem.emptyStake) 1
      (mapUpd (fun _ => ReputationSystem.emptyStake) 1
        { amount := 1000, timestamp := 0, lockPeriod := 100,
          stakeType := .Report, active := true, reputationMultiplier := 150 }) }

/-- Evidence-validator state with three authorized validators 1, 2, 3 at the
minimum validation reputation. -/
def evState : EvidenceValidator.State :=
  { EvidenceValidator.initState 9 with
    authorizedValidators := fun a => decide (a = 1 ∨ a = 2 ∨ a = 3),
    validatorReputation := fun _ => 50 }

/-- Evidence run: submit one item, then verdicts negative, negative, positive —
the third validation reaches quorum and finalizes the item as `Rejected`. -/
def evChain : Option EvidenceValidator.State :=
  (EvidenceValidator.submitEvidence evState 7 0
      "QmAAAAAAAAAAAAAAAAAAAAAAAAAAAAAAAAAAAAAAAAAAAA" 0 5 "png" "u" "d").bind
    (fun s => EvidenceValidator.validateEvidence s 1 1 1 false "bad" .Basic) |>.bind
    (fun s => EvidenceValidator.validateEvidence s 2 1 1 false "bad" .Basic) |>.bind
    (fun s => EvidenceValidator.validateEvidence s 3 1 1 true "good" .Basic)

/-- Registry state whose report 1 has been forced to `Expired` by hand (no
engine operation can produce this status; the fixture exists only to
instantiate status-preservation statements). -/
def sbrExpiredState : StakeBasedReportRegistry.State :=
  { StakeBasedReportRegistry.initState bal0 with
    reportCount := 1,
    reports := mapUpd (fun _ => StakeBasedReportRegistry.emptyReport) 1
      { StakeBasedReportRegistry.emptyReport with
        status := StakeBasedReportRegistry.ReportStatus.Expired } }

/-- Evidence-validator state with one submitted pending item (id 1). -/
def evItemState : EvidenceValidator.State :=
  (EvidenceValidator.submitEvidence evState 7 0
    "QmAAAAAAAAAAAAAAAAAAAAAAAAAAAAAAAAAAAAAAAAAAAA" 0 5 "png" "u" "d").getD evState

end Fixtures

/-! Generic lemmas about map updates, balance sums and transfer lists. -/

theorem sumBal_cons (a : Nat) (l : List Nat) (b : Nat → Nat) :
    sumBal (a :: l) b = b a + sumBal l b := rfl

theorem sumBal_congr (addrs : List Nat) (b b' : Nat → Nat)
    (h : ∀ y ∈ addrs, b y = b' y) : sumBal addrs b = sumBal addrs b' :=
  congrArg List.sum (List.map_congr_left h)

theorem mapUpd_same {β : Type} (f : Nat → β) (a : Nat) (b : β) :
    mapUpd f a b a = b := by simp [mapUpd]

theorem mapUpd_other {β : Type} (f : Nat → β) (a : Nat) (b : β) (x : Nat)
    (h : x ≠ a) : mapUpd f a b x = f x := by simp [mapUpd, h]

theorem sumBal_mapUpd (b : Nat → Nat) (a x : Nat) :
    ∀ (addrs : List Nat), addrs.Nodup → a ∈ addrs →
      (sumBal addrs (mapUpd b a x) : Int) = (sumBal addrs b : Int) - b a + x
  | [], _, ha => absurd ha (List.not_mem_nil a)
  | h :: t, hnd, ha => by
    rcases List.nodup_cons.mp hnd with ⟨hht, hnt⟩
    rw [sumBal_cons, sumBal_cons]
    rcases List.mem_cons.mp ha with rfl | hat
    · have heq : sumBal t (mapUpd b a x) = sumBal t b :=
        sumBal_congr t _ _ (fun y hy =>
          mapUpd_other b a x y (fun e => hht (e ▸ hy)))
      rw [heq, mapUpd_same]
      push_cast
      ring
    · have hha : h ≠ a := fun e => hht (e ▸ hat)
      rw [mapUpd_other b a x h hha]
      push_cast
      rw [sumBal_mapUpd b a x t hnt hat]
      ring

theorem sumBal_credit (b : Nat → Nat) (a amt : Nat) (addrs : List Nat)
    (hnd : addrs.Nodup) (ha : a ∈ addrs) :
    (sumBal addrs (mapUpd b a (b a + amt)) : Int) = (sumBal addrs b : Int) + amt := by
  rw [sumBal_mapUpd b a (b a + amt) addrs hnd ha]
  push_cast
  ring

namespace StakeBasedReportRegistry

theorem payoutTotal_nil : payoutTotal [] = 0 := rfl

theorem payoutTotal_cons (p : Nat × Nat) (ps : List (Nat × Nat)) :
    payoutTotal (p :: ps) = p.2 + payoutTotal ps := by
  simp [payoutTotal]

theorem sumBal_applyCredits (addrs : List Nat) (hnd : addrs.Nodup) :
    ∀ (ps : List (Nat × Nat)) (b : Nat → Nat), (∀ p ∈ ps, p.1 ∈ addrs) →
      (sumBal addrs (applyCredits b ps) : Int) = sumBal addrs b + payoutTotal ps
  | [], b, _ => by simp [applyCredits, payoutTotal_nil]
  | p :: rest, b, hmem => by
    have h1 : (sumBal addrs (mapUpd b p.1 (b p.1 + p.2)) : Int) = sumBal addrs b + p.2 :=
      sumBal_credit b p.1 p.2 addrs hnd (hmem p (List.mem_cons_self p rest))
    show (sumBal addrs (applyCredits (mapUpd b p.1 (b p.1 + p.2)) rest) : Int) = _
    rw [sumBal_applyCredits addrs hnd rest _
      (fun q hq => hmem q (List.mem_cons_of_mem p hq)), h1, payoutTotal_cons]
    push_cast
    ring

theorem paidTo_nil (a : Nat) : paidTo [] a = 0 := rfl

theorem paidTo_cons (p : Nat × Nat) (ps : List (Nat × Nat)) (a : Nat) :
    paidTo (p :: ps) a = (if p.1 = a then p.2 else 0) + paidTo ps a := by
  by_cases h : p.1 = a <;> simp [paidTo, List.filter_cons, h]

theorem paidTo_map_not_mem (f : Nat → Nat × Nat) (hf : ∀ x, (f x).1 = x) :
    ∀ (l : List Nat) (a : Nat), a ∉ l → paidTo (l.map f) a = 0
  | [], _, _ => rfl
  | x :: t, a, ha => by
    rw [List.map_cons, paidTo_cons]
    have hxa : (f x).1 ≠ a := by
      rw [hf x]
      exact fun e => ha (e ▸ List.mem_cons_self x t)
    rw [if_neg hxa,
      paidTo_map_not_mem f hf t a (fun h => ha (List.mem_cons_of_mem x h))]

theorem paidTo_map_mem (f : Nat → Nat × Nat) (hf : ∀ x, (f x).1 = x) :
    ∀ (l : List Nat), l.Nodup → ∀ a ∈ l, paidTo (l.map f) a = (f a).2
  | [], _, a, ha => absurd ha (List.not_mem_nil a)
  | x :: t, hnd, a, ha => by
    rcases List.nodup_cons.mp hnd with ⟨hxt, hnt⟩
    rw [List.map_cons, paidTo_cons]
    rcases List.mem_cons.mp ha with rfl | hat
    · rw [if_pos (hf a), paidTo_map_not_mem f hf t a hxt]
      simp
    · have hxa : (f x).1 ≠ a := by
        rw [hf x]
        exact fun e => hxt (e ▸ hat)
      rw [if_neg hxa, paidTo_map_mem f hf t hnt a hat]
      simp

end StakeBasedReportRegistry

namespace ReputationSystem

/-- C9 (amended): `updateReputation` first initializes a profile whose
`baseReputation` is `0` to the baseline `10`; a strictly positive `change` is
then added to that starting value, a non-positive `change` is subtracted from
it with a floor at `0` (truncated subtraction).  In particular a negative
delta applied to an account whose `baseReputation` is `0` leaves it at
`10 - |delta|` (floored at 0), not at `0`. -/
theorem C9_adjust_base_amended (s : State) (user : Nat) (change : Int)
    (icv : Bool) (now : Nat) :
    ((updateReputation s user change icv now).reputationProfiles user).baseReputation
      = (if 0 < change then
          (if (s.reputationProfiles user).baseReputation = 0 then 10
           else (s.reputationProfiles user).baseReputation) + change.toNat
         else
          (if (s.reputationProfiles user).baseReputation = 0 then 10
           else (s.reputationProfiles user).baseReputation) - (-change).toNat) := by
  unfold updateReputation updateStakedReputation
  simp only [mapUpd_same, mapUpd]
  split_ifs <;> simp_all <;> omega

/-- C9 counterexample: the claim says a negative delta applied to an account
whose `baseReputation` is `0` leaves it at `0`; on the code, `updateReputation`
of delta `-1` on a fresh account (base reputation `0`) yields `9`. -/
theorem C9_adjust_base_counterexample :
    ((initState (fun _ => 0)).reputationProfiles 1).baseReputation = 0
    ∧ ((updateReputation (initState (fun _ => 0)) 1 (-1) false 0).reputationProfiles 1).baseReputation = 9
    ∧ ¬ ((updateReputation (initState (fun _ => 0)) 1 (-1) false 0).reputationProfiles 1).baseReputation = 0 := by
  refine ⟨rfl, by decide, by decide⟩

end ReputationSystem

namespace StakeBasedReportRegistry

theorem validatedEntry_fst (r : Report) (x : Nat) : (validatedEntry r x).1 = x := by
  unfold validatedEntry
  by_cases h : r.votes x = VoteType.Valid <;> simp [h]

theorem rejectedEntry_fst (r : Report) (k x : Nat) : (rejectedEntry r k x).1 = x := by
  unfold rejectedEntry
  by_cases h : r.votes x = VoteType.Invalid <;> simp [h]

/-- C2: validated-outcome settlement — a report finalized at quorum with
`validVotes > invalidVotes` becomes `Validated`; the submitter is paid their
report stake plus `REPORTER_REWARD`, each validator who voted `Valid` is paid
their voting stake plus `VALIDATOR_REWARD`, and each validator who voted
`Invalid` is paid exactly their voting stake. -/
theorem C2_validated_settlement (r : Report)
    (hnd : r.validators.Nodup) (hrep : r.reporter ∉ r.validators)
    (_hq : MIN_VALIDATORS ≤ r.validators.length)
    (hmaj : r.invalidVotes < r.validVotes) :
    (finalizeReport r).1.status = ReportStatus.Validated
    ∧ paidTo (finalizeReport r).2 r.reporter = r.stakeAmount + REPORTER_REWARD
    ∧ (∀ v ∈ r.validators, r.votes v = VoteType.Valid →
        paidTo (finalizeReport r).2 v = r.validatorStakes v + VALIDATOR_REWARD)
    ∧ (∀ v ∈ r.validators, r.votes v = VoteType.Invalid →
        paidTo (finalizeReport r).2 v = r.validatorStakes v) := by
  have hmain : finalizeReport r
      = ({ r with status := .Validated }, validatedPayouts r) := by
    unfold finalizeReport
    rw [if_pos hmaj]
  rw [hmain]
  refine ⟨rfl, ?_, ?_, ?_⟩
  · show paidTo (validatedPayouts r) r.reporter = _
    unfold validatedPayouts
    rw [paidTo_cons, if_pos rfl,
      paidTo_map_not_mem _ (validatedEntry_fst r) r.validators r.reporter hrep]
    simp
  · intro v hv hvote
    show paidTo (validatedPayouts r) v = _
    unfold validatedPayouts
    have hne : r.reporter ≠ v := fun e => hrep (e ▸ hv)
    rw [paidTo_cons, if_neg hne,
      paidTo_map_mem _ (validatedEntry_fst r) r.validators hnd v hv]
    simp [validatedEntry, hvote]
  · intro v hv hvote
    show paidTo (validatedPayouts r) v = _
    unfold validatedPayouts
    have hne : r.reporter ≠ v := fun e => hrep (e ▸ hv)
    have hnv : ¬ r.votes v = VoteType.Valid := by
      rw [hvote]
      exact fun h => VoteType.noConfusion h
    rw [paidTo_cons, if_neg hne,
      paidTo_map_mem _ (validatedEntry_fst r) r.validators hnd v hv]
    simp [validatedEntry, hnv]

/-- C2 witness: on the concrete quorum report with votes valid, valid, invalid
the settlement pays the reporter, rewards validators 1 and 2, and refunds
validator 3 exactly its voting stake. -/
theorem C2_validated_settlement_witness :
    (finalizeReport Fixtures.reportA).1.status = ReportStatus.Validated
    ∧ paidTo (finalizeReport Fixtures.reportA).2 Fixtures.reportA.reporter
        = Fixtures.reportA.stakeAmount + REPORTER_REWARD
    ∧ paidTo (finalizeReport Fixtures.reportA).2 1
        = Fixtures.reportA.validatorStakes 1 + VALIDATOR_REWARD
    ∧ paidTo (finalizeReport Fixtures.reportA).2 3
        = Fixtures.reportA.validatorStakes 3 := by
  obtain ⟨h1, h2, h3, h4⟩ := C2_validated_settlement Fixtures.reportA
    (by decide) (by decide) (by decide) (by decide)
  exact ⟨h1, h2, h3 1 (by decide) (by decide), h4 3 (by decide) (by decide)⟩

/-- C3: rejected-outcome settlement — a report finalized at quorum without a
strict `Valid` majority becomes `Rejected`; the submitter is paid nothing
(their stake is forfeited), each validator who voted `Invalid` is paid their
own voting stake plus an even (integer-division) share of the submitter's
stake, and each validator who voted `Valid` is paid exactly their voting
stake. -/
theorem C3_rejected_settlement (r : Report)
    (hnd : r.validators.Nodup) (hrep : r.reporter ∉ r.validators)
    (_hq : MIN_VALIDATORS ≤ r.validators.length)
    (hmaj : r.validVotes ≤ r.invalidVotes)
    (hk : 0 < invalidVoterCount r) :
    (finalizeReport r).1.status = ReportStatus.Rejected
    ∧ paidTo (finalizeReport r).2 r.reporter = 0
    ∧ (∀ v ∈ r.validators, r.votes v = VoteType.Invalid →
        paidTo (finalizeReport r).2 v
          = r.validatorStakes v + r.stakeAmount / invalidVoterCount r)
    ∧ (∀ v ∈ r.validators, r.votes v = VoteType.Valid →
        paidTo (finalizeReport r).2 v = r.validatorStakes v) := by
  have hmain : finalizeReport r
      = ({ r with status := .Rejected }, rejectedPayouts r) := by
    unfold finalizeReport
    rw [if_neg (by omega)]
  have hps : rejectedPayouts r
      = r.validators.map (rejectedEntry r (invalidVoterCount r)) := by
    unfold rejectedPayouts
    rw [if_pos hk]
  rw [hmain]
  refine ⟨rfl, ?_, ?_, ?_⟩
  · show paidTo (rejectedPayouts r) r.reporter = 0
    rw [hps,
      paidTo_map_not_mem _ (rejectedEntry_fst r (invalidVoterCount r))
        r.validators r.reporter hrep]
  · intro v hv hvote
    show paidTo (rejectedPayouts r) v = _
    rw [hps,
      paidTo_map_mem _ (rejectedEntry_fst r (invalidVoterCount r))
        r.validators hnd v hv]
    simp [rejectedEntry, hvote]
  · intro v hv hvote
    show paidTo (rejectedPayouts r) v = _
    have hnv : ¬ r.votes v = VoteType.Invalid := by
      rw [hvote]
      exact fun h => VoteType.noConfusion h
    rw [hps,
      paidTo_map_mem _ (rejectedEntry_fst r (invalidVoterCount r))
        r.validators hnd v hv]
    simp [rejectedEntry, hnv]

/-- C3 witness: on the concrete quorum report with votes invalid, invalid,
valid the settlement forfeits the reporter's stake, splits it evenly between
validators 1 and 2 on top of their own stake return, and refunds validator 3
exactly its voting stake. -/
theorem C3_rejected_settlement_witness :
    (finalizeReport Fixtures.reportB).1.status = ReportStatus.Rejected
    ∧ paidTo (finalizeReport Fixtures.reportB).2 Fixtures.reportB.reporter = 0
    ∧ paidTo (finalizeReport Fixtures.reportB).2 1
        = Fixtures.reportB.validatorStakes 1
          + Fixtures.reportB.stakeAmount / invalidVoterCount Fixtures.reportB
    ∧ paidTo (finalizeReport Fixtures.reportB).2 3
        = Fixtures.reportB.validatorStakes 3 := by
  obtain ⟨h1, h2, h3, h4⟩ := C3_rejected_settlement Fixtures.reportB
    (by decide) (by decide) (by decide) (by decide) (by decide)
  exact ⟨h1, h2, h3 1 (by decide) (by decide), h4 3 (by decide) (by decide)⟩

end StakeBasedReportRegistry

namespace ReputationSystem

/-- C8: early-withdrawal penalty — withdrawing an active, funded stake pays the
owner `amount - earlyPenalty`, where the penalty is `SLASHING_PENALTY` percent
of the amount when the withdrawal is strictly before `timestamp + lockPeriod`
and zero at or after it; the penalty is credited to the reward pool and the
stake's `active` flag becomes `false`. -/
theorem C8_early_withdrawal (s : State) (caller now stakeId : Nat)
    (hamt : 0 < (s.userStakes caller stakeId).amount)
    (hact : (s.userStakes caller stakeId).active = true)
    (hcov : (s.userStakes caller stakeId).amount ≤ s.contractTokens) :
    (withdrawStake s caller now stakeId).map (fun s' =>
        (s'.tokenBalances caller, s'.rewardPoolTotalRewards,
         (s'.userStakes caller stakeId).active))
      = some (s.tokenBalances caller
            + ((s.userStakes caller stakeId).amount
              - earlyPenalty (s.userStakes caller stakeId) now),
          s.rewardPoolTotalRewards + earlyPenalty (s.userStakes caller stakeId) now,
          false) := by
  have hwa : (s.userStakes caller stakeId).amount
      - earlyPenalty (s.userStakes caller stakeId) now
      ≤ s.contractTokens := le_trans (Nat.sub_le _ _) hcov
  unfold withdrawStake
  rw [if_pos ⟨hamt, hact⟩, if_pos hwa]
  simp only [Option.map_some']
  simp [withdrawApply, updateStakedReputation, earlyPenalty, mapUpd_same]

/-- C8 witness: withdrawing the concrete 1000-token stake one second before
its lock period ends returns 900 tokens and credits the 100-token penalty to
the reward pool; withdrawing at the lock boundary returns the full 1000. -/
theorem C8_early_withdrawal_witness :
    ((withdrawStake Fixtures.rsStakeState 1 99 1).map (fun s' =>
        (s'.tokenBalances 1, s'.rewardPoolTotalRewards,
         (s'.userStakes 1 1).active))
      = some (Fixtures.rsStakeState.tokenBalances 1
            + ((Fixtures.rsStakeState.userStakes 1 1).amount
              - earlyPenalty (Fixtures.rsStakeState.userStakes 1 1) 99),
          Fixtures.rsStakeState.rewardPoolTotalRewards
            + earlyPenalty (Fixtures.rsStakeState.userStakes 1 1) 99,
          false))
    ∧ ((withdrawStake Fixtures.rsStakeState 1 100 1).map (fun s' =>
        (s'.tokenBalances 1, s'.rewardPoolTotalRewards,
         (s'.userStakes 1 1).active))
      = some (Fixtures.rsStakeState.tokenBalances 1
            + ((Fixtures.rsStakeState.userStakes 1 1).amount
              - earlyPenalty (Fixtures.rsStakeState.userStakes 1 1) 100),
          Fixtures.rsStakeState.rewardPoolTotalRewards
            + earlyPenalty (Fixtures.rsStakeState.userStakes 1 1) 100,
          false))
    ∧ earlyPenalty (Fixtures.rsStakeState.userStakes 1 1) 99 = 100
    ∧ earlyPenalty (Fixtures.rsStakeState.userStakes 1 1) 100 = 0 :=
  ⟨C8_early_withdrawal Fixtures.rsStakeState 1 99 1 (by decide) (by decide) (by decide),
   C8_early_withdrawal Fixtures.rsStakeState 1 100 1 (by decide) (by decide) (by decide),
   by decide, by decide⟩

end ReputationSystem

namespace EvidenceValidator

/-- C6 (amended): evidence reputation is adjusted at vote time, not at
finalization — every successful `validateEvidence` call with a positive
verdict immediately pays the caller `REPUTATION_REWARD_VALIDATION`, regardless
of the item's eventual outcome; a negative verdict pays nothing, again
regardless of outcome; finalization adjusts no reputation (every address other
than the caller keeps its reputation unchanged). -/
theorem C6_evidence_reward_amended (s : State) (caller now evidenceId : Nat)
    (isValid : Bool) (reason : String) (level : ValidationLevel) (other : Nat)
    (hauth : s.authorizedValidators caller = true)
    (hrep : MIN_VALIDATION_REPUTATION ≤ s.validatorReputation caller)
    (hex : (s.evidence evidenceId).present = true)
    (hst : (s.evidence evidenceId).status = EvidenceStatus.Pending
      ∨ (s.evidence evidenceId).status = EvidenceStatus.UnderReview)
    (hreason : reason ≠ "")
    (hnv : (s.evidence evidenceId).validators caller = false)
    (htime : now ≤ (s.evidence evidenceId).timestamp + VALIDATION_TIMEOUT)
    (hother : other ≠ caller) :
    (validateEvidence s caller now evidenceId isValid reason level).map
        (fun s' => (s'.validatorReputation caller, s'.validatorReputation other))
      = some (s.validatorReputation caller
            + (if isValid then REPUTATION_REWARD_VALIDATION else 0),
          s.validatorReputation other) := by
  simp only [validateEvidence, hauth, hrep, hex, hst, hreason, hnv, htime,
    ne_eq, not_false_iff, true_and, and_self, if_true, Option.map_some']
  cases isValid <;> simp [mapUpd, hother]

/-- C6 witness: a successful positive validation on the concrete pending item
pays the caller the reward immediately while validator 2's reputation is
untouched. -/
theorem C6_evidence_reward_amended_witness :
    (validateEvidence Fixtures.evItemState 1 1 1 true "good" .Basic).map
        (fun s' => (s'.validatorReputation 1, s'.validatorReputation 2))
      = some (Fixtures.evItemState.validatorReputation 1
            + (if true then REPUTATION_REWARD_VALIDATION else 0),
          Fixtures.evItemState.validatorReputation 2) :=
  C6_evidence_reward_amended Fixtures.evItemState 1 1 1 true "good" .Basic 2
    (by decide) (by decide) (by decide) (by decide) (by decide) (by decide)
    (by decide) (by decide)

/-- C6 counterexample: on the concrete run the item finalizes `Rejected`;
validators 1 and 2 voted negative — their verdicts match the outcome — yet
their reputation stays at 50 (no reward), while validator 3 voted positive —
a verdict that does not match the outcome — yet gained the reward (52).  This
refutes the claim that exactly the outcome-matching validators gain the
reputation reward. -/
theorem C6_evidence_reward_counterexample :
    Fixtures.evState.validatorReputation 1 = 50
    ∧ Fixtures.evState.validatorReputation 3 = 50
    ∧ Fixtures.evChain.map (fun s => ((s.evidence 1).status,
        s.validatorReputation 1, s.validatorReputation 2, s.validatorReputation 3))
      = some (EvidenceStatus.Rejected, 50, 50, 52) := by
  exact ⟨rfl, rfl, by decide⟩

end EvidenceValidator

/-- C4 (amended): the reputation floor applies to the non-stake-locking
`PhishBlockRegistry.submitReport`, which fails with a precondition error for
every caller whose reputation is below `MIN_REPUTATION_TO_REPORT` (in
particular reputation 0) without creating a report; the stake-locking
`StakeBasedReportRegistry.submitReportWithStake` enforces no reputation floor
at all: with the exact stake and non-empty fields it succeeds and creates a
report for any caller. -/
theorem C4_reputation_floor_amended :
    (∀ (s : PhishBlockRegistry.State) (caller now : Nat)
        (url wallet d h : String) (et : PhishBlockRegistry.EvidenceType),
      s.userReputation caller < PhishBlockRegistry.MIN_REPUTATION_TO_REPORT →
      PhishBlockRegistry.submitReport s caller now url wallet d h et
        = Except.error PhishBlockRegistry.Err.insufficientReputation)
    ∧ (∀ (s : StakeBasedReportRegistry.State) (caller now : Nat)
        (ty tv d h : String),
      ty ≠ "" → tv ≠ "" → d ≠ "" →
      StakeBasedReportRegistry.REPORT_STAKE ≤ s.balances caller →
      (StakeBasedReportRegistry.submitReportWithStake s caller now ty tv d h
          StakeBasedReportRegistry.REPORT_STAKE).map
          (fun s' => s'.reportCount)
        = some (s.reportCount + 1)) := by
  constructor
  · intro s caller now url wallet d h et hlow
    unfold PhishBlockRegistry.submitReport
    rw [if_pos hlow]
  · intro s caller now ty tv d h hty htv hd hbal
    unfold StakeBasedReportRegistry.submitReportWithStake
    rw [if_pos ⟨rfl, hty, htv, hd, hbal⟩]
    rfl

/-- C4 witness: a fresh account with reputation 0 is rejected by
`PhishBlockRegistry.submitReport`, while `submitReportWithStake` succeeds for
an account never seen before. -/
theorem C4_reputation_floor_amended_witness :
    (PhishBlockRegistry.submitReport (PhishBlockRegistry.initState 9) 7 0
        "http" "" "d" "h" PhishBlockRegistry.EvidenceType.URL
      = Except.error PhishBlockRegistry.Err.insufficientReputation)
    ∧ ((StakeBasedReportRegistry.submitReportWithStake
        (StakeBasedReportRegistry.initState Fixtures.bal0) 7 0
        "phishing_url" "http" "d" "h" StakeBasedReportRegistry.REPORT_STAKE).map
        (fun s' => s'.reportCount)
      = some ((StakeBasedReportRegistry.initState Fixtures.bal0).reportCount + 1)) :=
  ⟨C4_reputation_floor_amended.1 (PhishBlockRegistry.initState 9) 7 0
      "http" "" "d" "h" PhishBlockRegistry.EvidenceType.URL (by decide),
   C4_reputation_floor_amended.2 (StakeBasedReportRegistry.initState Fixtures.bal0)
      7 0 "phishing_url" "http" "d" "h" (by decide) (by decide) (by decide)
      (by decide)⟩

/-- C4 counterexample: the claim says an account whose `baseReputation` is `0`
cannot execute the stake-locking submit operation; on the code, account 7 —
whose reputation-system profile is fresh, `baseReputation = 0` — successfully
calls `submitReportWithStake`: a report is created with its stake locked. -/
theorem C4_reputation_floor_counterexample :
    ((ReputationSystem.initState (fun _ => 0)).reputationProfiles 7).baseReputation = 0
    ∧ (StakeBasedReportRegistry.submitReportWithStake
        (StakeBasedReportRegistry.initState Fixtures.bal0) 7 0
        "phishing_url" "http" "d" "h" StakeBasedReportRegistry.REPORT_STAKE).map
        (fun s => (s.reportCount, (s.reports 1).reporter, (s.reports 1).stakeAmount,
          StakeBasedReportRegistry.lockedOf (s.reports 1)))
      = some (1, 7, StakeBasedReportRegistry.REPORT_STAKE,
          StakeBasedReportRegistry.REPORT_STAKE) := by
  exact ⟨rfl, by decide⟩

namespace StakeBasedReportRegistry

theorem finalizeReport_status (r : Report) :
    (finalizeReport r).1.status = ReportStatus.Validated
    ∨ (finalizeReport r).1.status = ReportStatus.Rejected := by
  unfold finalizeReport
  by_cases h : r.invalidVotes < r.validVotes
  · rw [if_pos h]
    exact Or.inl rfl
  · rw [if_neg h]
    exact Or.inr rfl

theorem finalizeReport_validators (r : Report) :
    (finalizeReport r).1.validators = r.validators := by
  unfold finalizeReport
  by_cases h : r.invalidVotes < r.validVotes
  · rw [if_pos h]
  · rw [if_neg h]

/-- No successful step writes the `Expired` status: a report that is `Expired`
after a step was already `Expired` before it. -/
theorem step_no_expired (s : State) (op : Op) (s' : State)
    (h : step s op = some s') (i : Nat)
    (he : (s'.reports i).status = ReportStatus.Expired) :
    (s.reports i).status = ReportStatus.Expired := by
  cases op with
  | register c t =>
    simp only [step] at h
    unfold registerValidator at h
    split at h
    · exact Option.noConfusion h
    · cases h
      exact he
  | deposit a =>
    simp only [step] at h
    cases h
    exact he
  | submit c t ty tv d hh mv =>
    simp only [step] at h
    unfold submitReportWithStake at h
    split at h
    · cases h
      by_cases hi : i = s.reportCount + 1
      · subst hi
        rw [show ∀ u : State, u.reports = u.reports from fun _ => rfl] at he
        simp only [mapUpd_same] at he
        exact absurd he (fun hx => ReportStatus.noConfusion hx)
      · simp only [mapUpd_other _ _ _ _ hi] at he
        exact he
    · exact Option.noConfusion h
  | vote c t rid iv mv =>
    simp only [step] at h
    unfold voteOnReport at h
    split at h
    case isTrue hg =>
      split at h
      case isTrue hfin =>
        split at h
        case isTrue hpay =>
          cases h
          by_cases hi : i = rid
          · subst hi
            simp only [settleState, voteState, mapUpd_same] at he
            rcases finalizeReport_status (recordVote (s.reports i) c iv mv) with hv | hv <;>
              (rw [hv] at he; exact absurd he (fun hx => ReportStatus.noConfusion hx))
          · simp only [settleState, voteState, mapUpd_other _ _ _ _ hi] at he
            exact he
        case isFalse => exact Option.noConfusion h
      case isFalse =>
        cases h
        by_cases hi : i = rid
        · subst hi
          simpa [voteState, recordVote, mapUpd_same] using he
        · simp only [voteState, mapUpd_other _ _ _ _ hi] at he
          exact he
    case isFalse => exact Option.noConfusion h

theorem applyOp_no_expired (s : State) (op : Op) (i : Nat)
    (he : ((applyOp s op).reports i).status = ReportStatus.Expired) :
    (s.reports i).status = ReportStatus.Expired := by
  unfold applyOp at he
  cases hstep : step s op with
  | none => rw [hstep] at he; exact he
  | some s2 => rw [hstep] at he; exact step_no_expired s op s2 hstep i he

theorem run_no_expired :
    ∀ (ops : List Op) (s : State) (i : Nat),
      ((run s ops).reports i).status = ReportStatus.Expired →
      (s.reports i).status = ReportStatus.Expired
  | [], _, _, he => he
  | op :: ops, s, i, he =>
    applyOp_no_expired s op i (run_no_expired ops (applyOp s op) i he)

/-- C5 (amended): there is no lazy expiry — no engine operation ever
transitions a report to `Expired` (the status is unreachable from the initial
state), and an attempted vote on a report whose `votingDeadline` has elapsed
reverts, leaving the report as it was; in particular a `Pending` report past
its deadline with fewer than `MIN_VALIDATORS` votes simply stays `Pending`. -/
theorem C5_no_expiry_amended :
    (∀ (s : State) (op : Op) (i : Nat),
      ((applyOp s op).reports i).status = ReportStatus.Expired →
      (s.reports i).status = ReportStatus.Expired)
    ∧ (∀ (bal : Nat → Nat) (ops : List Op) (i : Nat),
      ((run (initState bal) ops).reports i).status ≠ ReportStatus.Expired)
    ∧ (∀ (s : State) (c now rid : Nat) (iv : Bool) (mv : Nat),
      (s.reports rid).votingDeadline < now →
      voteOnReport s c now rid iv mv = none) := by
  refine ⟨applyOp_no_expired, ?_, ?_⟩
  · intro bal ops i he
    have h0 := run_no_expired ops (initState bal) i he
    exact ReportStatus.noConfusion h0
  · intro s c now rid iv mv hlate
    unfold voteOnReport
    rw [if_neg]
    rintro ⟨-, -, hle, -⟩
    omega

/-- C5 witness: the preservation statement applied to a state whose report 1
was forced `Expired` by hand; the unreachability statement applied to the
concrete rejected-outcome run; and a concrete late vote reverting. -/
theorem C5_no_expiry_amended_witness :
    (Fixtures.sbrExpiredState.reports 1).status = ReportStatus.Expired
    ∧ ((run (initState Fixtures.bal0) Fixtures.sbrRejectedOps).reports 1).status
        ≠ ReportStatus.Expired
    ∧ voteOnReport Fixtures.sbrStaleState 2 700000 1 true VOTING_STAKE = none :=
  ⟨C5_no_expiry_amended.1 Fixtures.sbrExpiredState (Op.deposit 0) 1 (by decide),
   C5_no_expiry_amended.2.1 Fixtures.bal0 Fixtures.sbrRejectedOps 1,
   C5_no_expiry_amended.2.2 Fixtures.sbrStaleState 2 700000 1 true VOTING_STAKE
     (by decide)⟩

/-- C5 counterexample: the claim says the next operation touching a `Pending`
report whose deadline has elapsed with fewer than `MIN_VALIDATORS` votes
transitions it to `Expired`; on the code, report 1 of the concrete state is
exactly in that situation (deadline 604800 < 700000, no votes), yet the next
operation touching it — a vote at time 700000 — leaves its status `Pending`,
not `Expired`. -/
theorem C5_lazy_expiry_counterexample :
    (Fixtures.sbrStaleState.reports 1).status = ReportStatus.Pending
    ∧ (Fixtures.sbrStaleState.reports 1).votingDeadline < 700000
    ∧ (Fixtures.sbrStaleState.reports 1).validators.length < MIN_VALIDATORS
    ∧ ((applyOp Fixtures.sbrStaleState
        (Op.vote 2 700000 1 true VOTING_STAKE)).reports 1).status
        = ReportStatus.Pending
    ∧ ¬ ((applyOp Fixtures.sbrStaleState
        (Op.vote 2 700000 1 true VOTING_STAKE)).reports 1).status
        = ReportStatus.Expired := by
  decide

theorem nodup_append_single (l : List Nat) (a : Nat) (ha : a ∉ l)
    (hl : l.Nodup) : (l ++ [a]).Nodup := by
  simp [List.nodup_append, hl, ha]

theorem recordVote_validators_nodup (r : Report) (c : Nat) (iv : Bool) (mv : Nat)
    (h : r.validators.Nodup) : (recordVote r c iv mv).validators.Nodup := by
  unfold recordVote
  by_cases hc : c ∈ r.validators
  · simpa [hc] using h
  · simpa [hc] using nodup_append_single r.validators c hc h

theorem recordVote_validators_length (r : Report) (c : Nat) (iv : Bool) (mv : Nat) :
    (recordVote r c iv mv).validators.length ≤ r.validators.length + 1 := by
  unfold recordVote
  by_cases hc : c ∈ r.validators <;> simp [hc]

theorem quorumInv_init (bal : Nat → Nat) : quorumInv (initState bal) := by
  intro i
  refine ⟨List.nodup_nil, ?_, ?_⟩ <;> simp [initState, emptyReport, MIN_VALIDATORS]

theorem quorumInv_step (s : State) (op : Op) (s' : State)
    (h : step s op = some s') (hinv : quorumInv s) : quorumInv s' := by
  cases op with
  | register c t =>
    simp only [step] at h
    unfold registerValidator at h
    split at h
    · exact Option.noConfusion h
    · cases h
      exact hinv
  | deposit a =>
    simp only [step] at h
    cases h
    exact hinv
  | submit c t ty tv d hh mv =>
    simp only [step] at h
    unfold submitReportWithStake at h
    split at h
    · cases h
      intro i
      by_cases hi : i = s.reportCount + 1
      · subst hi
        refine ⟨?_, ?_, ?_⟩ <;> simp [mapUpd_same, MIN_VALIDATORS]
      · simpa [mapUpd_other _ _ _ _ hi] using hinv i
    · exact Option.noConfusion h
  | vote c t rid iv mv =>
    simp only [step] at h
    unfold voteOnReport at h
    split at h
    case isFalse => exact Option.noConfusion h
    case isTrue hg =>
      have hpend : (s.reports rid).status = ReportStatus.Pending := hg.2.2.2.1
      have hlt : (s.reports rid).validators.length < MIN_VALIDATORS :=
        (hinv rid).2.2 hpend
      have hnd1 : (recordVote (s.reports rid) c iv mv).validators.Nodup :=
        recordVote_validators_nodup _ c iv mv (hinv rid).1
      have hlen1 : (recordVote (s.reports rid) c iv mv).validators.length
          ≤ MIN_VALIDATORS :=
        le_trans (recordVote_validators_length _ c iv mv) (by omega)
      split at h
      case isTrue hfin =>
        split at h
        case isFalse => exact Option.noConfusion h
        case isTrue hpay =>
          cases h
          intro i
          by_cases hi : i = rid
          · subst hi
            refine ⟨?_, ?_, ?_⟩
            · simpa [settleState, voteState, mapUpd_same, finalizeReport_validators]
                using hnd1
            · simpa [settleState, voteState, mapUpd_same, finalizeReport_validators]
                using hlen1
            · intro hp
              exfalso
              simp only [settleState, voteState, mapUpd_same] at hp
              rcases finalizeReport_status (recordVote (s.reports i) c iv mv) with hv | hv <;>
                (rw [hv] at hp; exact ReportStatus.noConfusion hp)
          · simpa [settleState, voteState, mapUpd_other _ _ _ _ hi] using hinv i
      case isFalse hfin =>
        cases h
        intro i
        by_cases hi : i = rid
        · subst hi
          refine ⟨?_, ?_, ?_⟩
          · simpa [voteState, mapUpd_same] using hnd1
          · simpa [voteState, mapUpd_same] using hlen1
          · intro _
            simpa [voteState, mapUpd_same] using Nat.lt_of_not_le hfin
        · simpa [voteState, mapUpd_other _ _ _ _ hi] using hinv i

theorem quorumInv_applyOp (s : State) (op : Op) (hinv : quorumInv s) :
    quorumInv (applyOp s op) := by
  unfold applyOp
  cases hstep : step s op with
  | none => exact hinv
  | some s2 => exact quorumInv_step s op s2 hstep hinv

theorem quorumInv_run :
    ∀ (ops : List Op) (s : State), quorumInv s → quorumInv (run s ops)
  | [], _, hinv => hinv
  | op :: ops, s, hinv =>
    quorumInv_run ops (applyOp s op) (quorumInv_applyOp s op hinv)

/-- C10: implicit quorum-size bound — in every state reachable from a fresh
deployment, each report's validator list has no duplicates and at most
`MIN_VALIDATORS` (= 3) entries (strictly fewer while the report is still
`Pending`, because the vote that reaches `MIN_VALIDATORS` finalizes the report
within the same call and later votes fail on the non-`Pending` status); in
particular the declared `MAX_VALIDATORS` (= 5) bound is never attained. -/
theorem C10_quorum_bound (bal : Nat → Nat) (ops : List Op) (i : Nat) :
    ((run (initState bal) ops).reports i).validators.Nodup
    ∧ ((run (initState bal) ops).reports i).validators.length ≤ MIN_VALIDATORS
    ∧ (((run (initState bal) ops).reports i).status = ReportStatus.Pending →
        ((run (initState bal) ops).reports i).validators.length < MIN_VALIDATORS)
    ∧ ((run (initState bal) ops).reports i).validators.length < MAX_VALIDATORS := by
  obtain ⟨h1, h2, h3⟩ := quorumInv_run ops (initState bal) (quorumInv_init bal) i
  refine ⟨h1, h2, h3, ?_⟩
  have : MIN_VALIDATORS < MAX_VALIDATORS := by decide
  omega

/-- C10 witness: after the concrete finalized run report 1 holds exactly the
three distinct validators; after the run stopped at two votes the report is
still `Pending` with strictly fewer than `MIN_VALIDATORS` validators. -/
theorem C10_quorum_bound_witness :
    ((run (initState Fixtures.bal0) Fixtures.sbrRejectedOps).reports 1).validators.Nodup
    ∧ ((run (initState Fixtures.bal0) Fixtures.sbrRejectedOps).reports 1).validators.length
        ≤ MIN_VALIDATORS
    ∧ ((run (initState Fixtures.bal0) Fixtures.sbrPendingOps).reports 1).status
        = ReportStatus.Pending
    ∧ ((run (initState Fixtures.bal0) Fixtures.sbrPendingOps).reports 1).validators.length
        < MIN_VALIDATORS := by
  obtain ⟨h1, h2, _, _⟩ := C10_quorum_bound Fixtures.bal0 Fixtures.sbrRejectedOps 1
  obtain ⟨_, _, h6, _⟩ := C10_quorum_bound Fixtures.bal0 Fixtures.sbrPendingOps 1
  exact ⟨h1, h2, by decide, h6 (by decide)⟩

theorem totalValue_eq (addrs : List Nat) (s : State) :
    totalValue addrs s = (sumBal addrs s.balances : Int) + s.contractBalance := by
  unfold totalValue rewardPoolBalance
  ring

theorem finalizeReport_reporter (r : Report) :
    (finalizeReport r).1.reporter = r.reporter := by
  unfold finalizeReport
  by_cases h : r.invalidVotes < r.validVotes
  · rw [if_pos h]
  · rw [if_neg h]

theorem finalizeReport_payout_addr (r : Report) (p : Nat × Nat)
    (hp : p ∈ (finalizeReport r).2) : p.1 = r.reporter ∨ p.1 ∈ r.validators := by
  unfold finalizeReport at hp
  by_cases hmaj : r.invalidVotes < r.validVotes
  · rw [if_pos hmaj] at hp
    unfold validatedPayouts at hp
    rcases List.mem_cons.mp hp with rfl | hmem
    · exact Or.inl rfl
    · obtain ⟨v, hv, rfl⟩ := List.mem_map.mp hmem
      refine Or.inr ?_
      rw [validatedEntry_fst r v]
      exact hv
  · rw [if_neg hmaj] at hp
    unfold rejectedPayouts at hp
    by_cases hk : 0 < invalidVoterCount r
    · rw [if_pos hk] at hp
      obtain ⟨v, hv, rfl⟩ := List.mem_map.mp hp
      refine Or.inr ?_
      rw [rejectedEntry_fst r _ v]
      exact hv
    · rw [if_neg hk] at hp
      exact absurd hp (List.not_mem_nil p)

theorem recordVote_validators_subset (r : Report) (c : Nat) (iv : Bool) (mv : Nat)
    (addrs : List Nat) (hold : ∀ v ∈ r.validators, v ∈ addrs) (hc : c ∈ addrs) :
    ∀ v ∈ (recordVote r c iv mv).validators, v ∈ addrs := by
  intro v hv
  unfold recordVote at hv
  by_cases hcm : c ∈ r.validators
  · simp only [hcm, if_true] at hv
    exact hold v hv
  · simp only [hcm, if_false, List.mem_append, List.mem_singleton] at hv
    rcases hv with hv | rfl
    · exact hold v hv
    · exact hc

theorem recordVote_payout_addr (s : State) (rid c : Nat) (iv : Bool) (mv : Nat)
    (addrs : List Nat) (hsup : supports addrs s) (hrid : rid ≤ s.reportCount)
    (hc : c ∈ addrs) :
    ∀ p ∈ (finalizeReport (recordVote (s.reports rid) c iv mv)).2, p.1 ∈ addrs := by
  intro p hp
  rcases finalizeReport_payout_addr _ p hp with he | hm
  · rw [he]
    exact (hsup rid hrid).1
  · exact recordVote_validators_subset (s.reports rid) c iv mv addrs
      (hsup rid hrid).2 hc p.1 hm

/-- A successful non-deposit step moves value between the accounts and the
contract without creating or destroying any: the sum of spendable balances
plus the contract balance is unchanged. -/
theorem step_conserves (addrs : List Nat) (hnd : addrs.Nodup) (s : State)
    (op : Op) (s' : State) (h : step s op = some s') (hsup : supports addrs s)
    (hc : opCaller op ∈ addrs) (hdep : isDeposit op = false) :
    (sumBal addrs s'.balances : Int) + s'.contractBalance
      = (sumBal addrs s.balances : Int) + s.contractBalance := by
  cases op with
  | register c t =>
    simp only [step] at h
    unfold registerValidator at h
    split at h
    · exact Option.noConfusion h
    · cases h
      rfl
  | deposit a => simp [isDeposit] at hdep
  | submit c t ty tv d hh mv =>
    simp only [step] at h
    unfold submitReportWithStake at h
    split at h
    case isTrue hg =>
      obtain ⟨hmv, -, -, -, hbal⟩ := hg
      cases h
      show (sumBal addrs (mapUpd s.balances c (s.balances c - mv)) : Int)
          + (s.contractBalance + mv) = _
      rw [sumBal_mapUpd s.balances c (s.balances c - mv) addrs hnd hc]
      push_cast [Nat.cast_sub hbal]
      ring
    case isFalse => exact Option.noConfusion h
  | vote c t rid iv mv =>
    simp only [step] at h
    unfold voteOnReport at h
    split at h
    case isFalse => exact Option.noConfusion h
    case isTrue hg =>
      obtain ⟨hact, hrid, hddl, hpend, hmv, hnone, hbal⟩ := hg
      split at h
      case isFalse hfin =>
        cases h
        show (sumBal addrs (mapUpd s.balances c (s.balances c - mv)) : Int)
            + (s.contractBalance + mv) = _
        rw [sumBal_mapUpd s.balances c (s.balances c - mv) addrs hnd hc]
        push_cast [Nat.cast_sub hbal]
        ring
      case isTrue hfin =>
        split at h
        case isFalse => exact Option.noConfusion h
        case isTrue hpay =>
          cases h
          have hmem := recordVote_payout_addr s rid c iv mv addrs hsup hrid hc
          show (sumBal addrs (applyCredits (mapUpd s.balances c (s.balances c - mv))
                (finalizeReport (recordVote (s.reports rid) c iv mv)).2) : Int)
              + ((s.contractBalance + mv
                - payoutTotal (finalizeReport (recordVote (s.reports rid) c iv mv)).2
                  : Nat) : Int) = _
          rw [sumBal_applyCredits addrs hnd _ _ hmem,
            sumBal_mapUpd s.balances c (s.balances c - mv) addrs hnd hc]
          have hpay' : payoutTotal (finalizeReport (recordVote (s.reports rid) c iv mv)).2
              ≤ s.contractBalance + mv := hpay
          push_cast [Nat.cast_sub hbal, Nat.cast_sub hpay']
          ring

theorem step_supports (addrs : List Nat) (s : State) (op : Op) (s' : State)
    (h : step s op = some s') (hsup : supports addrs s)
    (hc : opCaller op ∈ addrs) : supports addrs s' := by
  cases op with
  | register c t =>
    simp only [step] at h
    unfold registerValidator at h
    split at h
    · exact Option.noConfusion h
    · cases h
      exact hsup
  | deposit a =>
    simp only [step] at h
    cases h
    exact hsup
  | submit c t ty tv d hh mv =>
    simp only [step] at h
    unfold submitReportWithStake at h
    split at h
    case isTrue hg =>
      cases h
      intro i hi
      by_cases hieq : i = s.reportCount + 1
      · subst hieq
        constructor
        · simpa [mapUpd_same] using hc
        · simp [mapUpd_same]
      · have hi' : i ≤ s.reportCount := by
          simp only at hi
          omega
        simpa [mapUpd_other _ _ _ _ hieq] using hsup i hi'
    case isFalse => exact Option.noConfusion h
  | vote c t rid iv mv =>
    simp only [step] at h
    unfold voteOnReport at h
    split at h
    case isFalse => exact Option.noConfusion h
    case isTrue hg =>
      obtain ⟨hact, hrid, hddl, hpend, hmv, hnone, hbal⟩ := hg
      have hsub := recordVote_validators_subset (s.reports rid) c iv mv addrs
        (hsup rid hrid).2 hc
      have hrep : (recordVote (s.reports rid) c iv mv).reporter
          = (s.reports rid).reporter := rfl
      split at h
      case isFalse hfin =>
        cases h
        intro i hi
        by_cases hieq : i = rid
        · subst hieq
          refine ⟨?_, ?_⟩
          · simpa [voteState, mapUpd_same, hrep] using (hsup i hrid).1
          · simpa [voteState, mapUpd_same] using hsub
        · simpa [voteState, mapUpd_other _ _ _ _ hieq] using hsup i hi
      case isTrue hfin =>
        split at h
        case isFalse => exact Option.noConfusion h
        case isTrue hpay =>
          cases h
          intro i hi
          by_cases hieq : i = rid
          · subst hieq
            refine ⟨?_, ?_⟩
            · simpa [settleState, voteState, mapUpd_same, finalizeReport_reporter,
                hrep] using (hsup i hrid).1
            · simpa [settleState, voteState, mapUpd_same, finalizeReport_validators]
                using hsub
          · simpa [settleState, voteState, mapUpd_other _ _ _ _ hieq] using hsup i hi

theorem applyOp_supports (addrs : List Nat) (s : State) (op : Op)
    (hsup : supports addrs s) (hc : opCaller op ∈ addrs) :
    supports addrs (applyOp s op) := by
  unfold applyOp
  cases hstep : step s op with
  | none => exact hsup
  | some s2 => exact step_supports addrs s op s2 hstep hsup hc

theorem applyOp_conserves (addrs : List Nat) (hnd : addrs.Nodup) (s : State)
    (op : Op) (hsup : supports addrs s) (hc : opCaller op ∈ addrs)
    (hdep : isDeposit op = false) :
    (sumBal addrs (applyOp s op).balances : Int) + (applyOp s op).contractBalance
      = (sumBal addrs s.balances : Int) + s.contractBalance := by
  unfold applyOp
  cases hstep : step s op with
  | none => rfl
  | some s2 => exact step_conserves addrs hnd s op s2 hstep hsup hc hdep

theorem run_conserves (addrs : List Nat) (hnd : addrs.Nodup) :
    ∀ (ops : List Op) (s : State), supports addrs s →
      (∀ op ∈ ops, opCaller op ∈ addrs) → (∀ op ∈ ops, isDeposit op = false) →
      (sumBal addrs (run s ops).balances : Int) + (run s ops).contractBalance
        = (sumBal addrs s.balances : Int) + s.contractBalance
  | [], _, _, _, _ => rfl
  | op :: ops, s, hsup, hcall, hdep => by
    have hc := hcall op (List.mem_cons_self op ops)
    have hd := hdep op (List.mem_cons_self op ops)
    have ih := run_conserves addrs hnd ops (applyOp s op)
      (applyOp_supports addrs s op hsup hc)
      (fun o ho => hcall o (List.mem_cons_of_mem op ho))
      (fun o ho => hdep o (List.mem_cons_of_mem op ho))
    calc (sumBal addrs (run (applyOp s op) ops).balances : Int)
          + (run (applyOp s op) ops).contractBalance
        = (sumBal addrs (applyOp s op).balances : Int)
          + (applyOp s op).contractBalance := ih
      _ = (sumBal addrs s.balances : Int) + s.contractBalance :=
          applyOp_conserves addrs hnd s op hsup hc hd

end StakeBasedReportRegistry

namespace ReputationSystem

theorem totalTokens_eq (addrs : List Nat) (s : State) :
    totalTokens addrs s = (sumBal addrs s.tokenBalances : Int) + s.contractTokens := by
  unfold totalTokens rewardPoolTokens
  ring

/-- Every successful `ReputationSystem` operation — staking, withdrawal with
or without penalty, slashing, reward claims, reputation updates — moves tokens
between the users and the contract without creating or destroying any. -/
theorem tokenStep_conserves (addrs : List Nat) (hnd : addrs.Nodup) (s : State)
    (op : Op) (s' : State) (h : step s op = some s') (hu : opUser op ∈ addrs) :
    (sumBal addrs s'.tokenBalances : Int) + s'.contractTokens
      = (sumBal addrs s.tokenBalances : Int) + s.contractTokens := by
  cases op with
  | deposit c t a l ty =>
    simp only [step] at h
    unfold depositStake at h
    split at h
    case isFalse => exact Option.noConfusion h
    case isTrue hg =>
      obtain ⟨-, -, -, -, -, hbal⟩ := hg
      cases h
      show (sumBal addrs (mapUpd s.tokenBalances c (s.tokenBalances c - a)) : Int)
          + (s.contractTokens + a) = _
      rw [sumBal_mapUpd s.tokenBalances c (s.tokenBalances c - a) addrs hnd hu]
      push_cast [Nat.cast_sub hbal]
      ring
  | withdraw c t i =>
    simp only [step] at h
    unfold withdrawStake at h
    split at h
    case isFalse => exact Option.noConfusion h
    case isTrue hg =>
      split at h
      case isFalse => exact Option.noConfusion h
      case isTrue hcov =>
        cases h
        show (sumBal addrs (mapUpd s.tokenBalances c (s.tokenBalances c
              + ((s.userStakes c i).amount - earlyPenalty (s.userStakes c i) t))) : Int)
            + ((s.contractTokens
              - ((s.userStakes c i).amount - earlyPenalty (s.userStakes c i) t)
                : Nat) : Int) = _
        rw [sumBal_credit s.tokenBalances c
          ((s.userStakes c i).amount - earlyPenalty (s.userStakes c i) t) addrs hnd hu]
        push_cast [Nat.cast_sub hcov]
        ring
  | slash u i =>
    simp only [step] at h
    unfold slashUser at h
    split at h
    case isFalse => exact Option.noConfusion h
    case isTrue hg =>
      cases h
      rfl
  | claim c t =>
    simp only [step] at h
    unfold claimRewards at h
    split at h
    case isFalse => exact Option.noConfusion h
    case isTrue hg =>
      obtain ⟨-, -, hcov⟩ := hg
      cases h
      show (sumBal addrs (mapUpd s.tokenBalances c
            (s.tokenBalances c + s.pendingRewards c)) : Int)
          + ((s.contractTokens - s.pendingRewards c : Nat) : Int) = _
      rw [sumBal_credit s.tokenBalances c (s.pendingRewards c) addrs hnd hu]
      push_cast [Nat.cast_sub hcov]
      ring
  | updateRep u ch icv t =>
    simp only [step] at h
    cases h
    rfl

theorem tokenApplyOp_conserves (addrs : List Nat) (hnd : addrs.Nodup)
    (s : State) (op : Op) (hu : opUser op ∈ addrs) :
    (sumBal addrs (applyOp s op).tokenBalances : Int) + (applyOp s op).contractTokens
      = (sumBal addrs s.tokenBalances : Int) + s.contractTokens := by
  unfold applyOp
  cases hstep : step s op with
  | none => rfl
  | some s2 => exact tokenStep_conserves addrs hnd s op s2 hstep hu

theorem tokenRun_conserves (addrs : List Nat) (hnd : addrs.Nodup) :
    ∀ (rops : List Op) (s : State), (∀ op ∈ rops, opUser op ∈ addrs) →
      (sumBal addrs (run s rops).tokenBalances : Int) + (run s rops).contractTokens
        = (sumBal addrs s.tokenBalances : Int) + s.contractTokens
  | [], _, _ => rfl
  | op :: rops, s, hcall => by
    have hu := hcall op (List.mem_cons_self op rops)
    calc (sumBal addrs (run (applyOp s op) rops).tokenBalances : Int)
          + (run (applyOp s op) rops).contractTokens
        = (sumBal addrs (applyOp s op).tokenBalances : Int)
          + (applyOp s op).contractTokens :=
          tokenRun_conserves addrs hnd rops (applyOp s op)
            (fun o ho => hcall o (List.mem_cons_of_mem op ho))
      _ = (sumBal addrs s.tokenBalances : Int) + s.contractTokens :=
          tokenApplyOp_conserves addrs hnd s op hu

end ReputationSystem

/-- C1: conservation of value.  In the report registry, over any set of
accounts covering the participants, any sequence of non-deposit operations
leaves `sum(spendableBalance) + lockedTotal + rewardPoolBalance` unchanged —
report submission, voting, finalization with its reporter/validator payouts
and stake redistribution neither create nor destroy value — while an explicit
external deposit increases the total by exactly the deposited amount.  In the
reputation system, every sequence of operations (stake deposits, withdrawals
with or without penalty, slashing, reward claims, reputation updates) likewise
leaves `sum(tokenBalances) + lockedTokens + rewardPoolTokens` unchanged. -/
theorem C1_value_conservation :
    (∀ (addrs : List Nat) (s : StakeBasedReportRegistry.State)
        (ops : List StakeBasedReportRegistry.Op),
      addrs.Nodup → StakeBasedReportRegistry.supports addrs s →
      (∀ op ∈ ops, StakeBasedReportRegistry.opCaller op ∈ addrs) →
      (∀ op ∈ ops, StakeBasedReportRegistry.isDeposit op = false) →
      StakeBasedReportRegistry.totalValue addrs (StakeBasedReportRegistry.run s ops)
        = StakeBasedReportRegistry.totalValue addrs s)
    ∧ (∀ (addrs : List Nat) (s : StakeBasedReportRegistry.State) (a : Nat),
      StakeBasedReportRegistry.totalValue addrs
          (StakeBasedReportRegistry.applyOp s (StakeBasedReportRegistry.Op.deposit a))
        = StakeBasedReportRegistry.totalValue addrs s + a)
    ∧ (∀ (addrs : List Nat) (rs : ReputationSystem.State)
        (rops : List ReputationSystem.Op),
      addrs.Nodup → (∀ op ∈ rops, ReputationSystem.opUser op ∈ addrs) →
      ReputationSystem.totalTokens addrs (ReputationSystem.run rs rops)
        = ReputationSystem.totalTokens addrs rs) := by
  refine ⟨?_, ?_, ?_⟩
  · intro addrs s ops hnd hsup hcall hdep
    rw [StakeBasedReportRegistry.totalValue_eq, StakeBasedReportRegistry.totalValue_eq]
    exact StakeBasedReportRegistry.run_conserves addrs hnd ops s hsup hcall hdep
  · intro addrs s a
    rw [StakeBasedReportRegistry.totalValue_eq, StakeBasedReportRegistry.totalValue_eq]
    show (sumBal addrs s.balances : Int) + (s.contractBalance + a) = _
    ring
  · intro addrs rs rops hnd hcall
    rw [ReputationSystem.totalTokens_eq, ReputationSystem.totalTokens_eq]
    exact ReputationSystem.tokenRun_conserves addrs hnd rops rs hcall

/-- C1 witness: the full rejected-outcome run (submission, three votes,
finalization with stake redistribution) conserves the registry total over the
participating accounts; a deposit of 7 raises it by exactly 7; and a concrete
penalized withdrawal conserves the reputation-system token total. -/
theorem C1_value_conservation_witness :
    StakeBasedReportRegistry.totalValue [0, 1, 2, 3, 4]
        (StakeBasedReportRegistry.run
          (StakeBasedReportRegistry.initState Fixtures.bal0) Fixtures.sbrRejectedOps)
      = StakeBasedReportRegistry.totalValue [0, 1, 2, 3, 4]
          (StakeBasedReportRegistry.initState Fixtures.bal0)
    ∧ StakeBasedReportRegistry.totalValue [0, 1, 2, 3, 4]
        (StakeBasedReportRegistry.applyOp
          (StakeBasedReportRegistry.initState Fixtures.bal0)
          (StakeBasedReportRegistry.Op.deposit 7))
      = StakeBasedReportRegistry.totalValue [0, 1, 2, 3, 4]
          (StakeBasedReportRegistry.initState Fixtures.bal0) + 7
    ∧ ReputationSystem.totalTokens [1]
        (ReputationSystem.run Fixtures.rsStakeState [ReputationSystem.Op.withdraw 1 99 1])
      = ReputationSystem.totalTokens [1] Fixtures.rsStakeState :=
  ⟨C1_value_conservation.1 [0, 1, 2, 3, 4]
      (StakeBasedReportRegistry.initState Fixtures.bal0) Fixtures.sbrRejectedOps
      (by decide)
      (by
        intro i hi
        refine ⟨?_, ?_⟩
        · show StakeBasedReportRegistry.emptyReport.reporter ∈ [0, 1, 2, 3, 4]
          decide
        · intro v hv
          exact absurd hv (List.not_mem_nil v))
      (by decide) (by decide),
   C1_value_conservation.2.1 [0, 1, 2, 3, 4]
      (StakeBasedReportRegistry.initState Fixtures.bal0) 7,
   C1_value_conservation.2.2 [1] Fixtures.rsStakeState
      [ReputationSystem.Op.withdraw 1 99 1] (by decide) (by decide)⟩

/-- C7: tie defaults to rejection — a report finalized with
`validVotes = invalidVotes` is `Rejected`, and an evidence item finalized with
`positiveValidations = negativeValidations` is `Rejected`. -/
theorem C7_tie_rejection :
    (∀ r : StakeBasedReportRegistry.Report, r.validVotes = r.invalidVotes →
      (StakeBasedReportRegistry.finalizeReport r).1.status
        = StakeBasedReportRegistry.ReportStatus.Rejected)
    ∧ (∀ ev : EvidenceValidator.Evidence,
        ev.positiveValidations = ev.negativeValidations →
      (EvidenceValidator.finalizeValidation ev).status
        = EvidenceValidator.EvidenceStatus.Rejected) := by
  constructor
  · intro r h
    unfold StakeBasedReportRegistry.finalizeReport
    rw [if_neg (by omega)]
  · intro ev h
    unfold EvidenceValidator.finalizeValidation
    rw [if_neg (by omega)]

/-- C7 witness: a concretely tied report and a concretely tied evidence item
both finalize to `Rejected`. -/
theorem C7_tie_rejection_witness :
    (StakeBasedReportRegistry.finalizeReport Fixtures.reportTie).1.status
      = StakeBasedReportRegistry.ReportStatus.Rejected
    ∧ (EvidenceValidator.finalizeValidation
        { EvidenceValidator.emptyEvidence with
          positiveValidations := 2, negativeValidations := 2 }).status
      = EvidenceValidator.EvidenceStatus.Rejected :=
  ⟨C7_tie_rejection.1 Fixtures.reportTie (by decide),
   C7_tie_rejection.2 _ (by decide)⟩

end PhishBlock
